import Mathlib

/-!
# kek-backend: the Alert Store and the evaluation pass

A shallow embedding of `internal/alert/database/alert.go`, `internal/alert/cron.go`,
`internal/uniswap` and `internal/database/database.go`.

The relational engine behind `*gorm.DB` is not part of the repository; it is embedded here as
pure functions over the two tables the code touches (`alerts`, `accounts`).  Every statement the
Go code sends takes a `fault : Option Err`: `some e` is a driver-level failure of that statement
(lost connection, timeout, ...), reported in the statement's `Error` and leaving the tables
untouched; `none` means the engine executed the statement.
-/

set_option autoImplicit false

namespace Kek

/-! ## Errors -/

/-- Error values that flow through the store: the two sentinels of `internal/database`, gorm's
`ErrRecordNotFound`, the driver's constraint violations, any other driver failure, and the two
ways `RunInTx` builds errors (`errors.Wrap` of pkg/errors, `fmt.Errorf`). -/
inductive Err where
  | ErrNotFound
  | ErrKeyConflict
  | ErrRecordNotFound
  | duplicateKey (constraintName : String)
  | foreignKey (constraintName : String)
  | driver (msg : String)
  | wrap (cause : Err) (msg : String)
  | errorf (msg : String)
deriving DecidableEq, Repr

/-- Modelled from the spec: `database.IsKeyConflictErr` (its file is not among the sources).  The
store "translates low-level persistence errors into the taxonomy at the boundary": the driver's
unique violation and the sentinel itself (the handler applies the test to what `SaveAlert`
returned) are key conflicts, nothing else is. -/
def IsKeyConflictErr : Err → Bool
  | .ErrKeyConflict => true
  | .duplicateKey _ => true
  | _ => false

/-- Modelled from the spec: `database.IsRecordNotFoundErr` (its file is not among the sources):
gorm's `ErrRecordNotFound` and the sentinel `ErrNotFound` (the handler applies the test to the
cause of what `RunInTx` returned). -/
def IsRecordNotFoundErr : Err → Bool
  | .ErrNotFound => true
  | .ErrRecordNotFound => true
  | _ => false

/-! ## Data model -/

/-- Go `time.Time`, as whole seconds since the Unix epoch (so `t.Unix()` is `t` itself). -/
abbrev Time := Int

/-- The zero `time.Time{}` (January 1, year 1, 00:00 UTC). -/
def zeroTime : Time := -62135596800

/-- Modelled from the spec: `accountModel.Account` (its file is not among the sources), with the
fields the sources read: `ID`, `Username`, `Email`, `Password`, `Bio`, `Image`, `Token`. -/
structure Account where
  ID : Nat := 0
  Username : String := ""
  Email : String := ""
  Password : String := ""
  Bio : String := ""
  Image : String := ""
  Token : String := ""
deriving DecidableEq, Repr

/-- The struct `model.Alert` of `alert_model.go`. -/
structure Alert where
  ID : Nat := 0
  Slug : String := ""
  Title : String := ""
  Body : String := ""
  PairAddress : String := ""
  AlertType : String := ""
  AlertValue : String := ""
  AlertOption : String := ""
  ExpirationTime : Time := zeroTime
  AlertActions : String := ""
  AlertStatus : String := ""
  CreatedAt : Time := zeroTime
  UpdatedAt : Time := zeroTime
  DeletedAtUnix : Int := 0
  Account : Account := {}
  AccountId : Nat := 0
deriving DecidableEq, Repr

/-- A row of table `alerts`: the columns named by the `gorm:"column:..."` tags plus the foreign
key `account_id`; the owning account is not stored in the row. -/
structure AlertRow where
  id : Nat
  slug : String
  title : String
  body : String
  pair_address : String
  alert_type : String
  alert_value : String
  alert_option : String
  expiration_time : Time
  alert_actions : String
  alert_status : String
  created_at : Time
  updated_at : Time
  deleted_at_unix : Int
  account_id : Nat
deriving DecidableEq, Repr

/-- The columns written for an alert. -/
def Alert.toRow (a : Alert) : AlertRow :=
  { id := a.ID, slug := a.Slug, title := a.Title, body := a.Body,
    pair_address := a.PairAddress, alert_type := a.AlertType, alert_value := a.AlertValue,
    alert_option := a.AlertOption, expiration_time := a.ExpirationTime,
    alert_actions := a.AlertActions, alert_status := a.AlertStatus,
    created_at := a.CreatedAt, updated_at := a.UpdatedAt,
    deleted_at_unix := a.DeletedAtUnix, account_id := a.AccountId }

/-- The struct gorm scans from a row of `alerts` joined with a row of `accounts`
(`Joins("Account")`). -/
def AlertRow.toAlert (r : AlertRow) (acc : Account) : Alert :=
  { ID := r.id, Slug := r.slug, Title := r.title, Body := r.body,
    PairAddress := r.pair_address, AlertType := r.alert_type, AlertValue := r.alert_value,
    AlertOption := r.alert_option, ExpirationTime := r.expiration_time,
    AlertActions := r.alert_actions, AlertStatus := r.alert_status,
    CreatedAt := r.created_at, UpdatedAt := r.updated_at,
    DeletedAtUnix := r.deleted_at_unix, Account := acc, AccountId := r.account_id }

/-- The tables seen through one database handle (the pool `a.db`, or the transaction that
`database.FromContext(ctx, a.db)` resolves to). -/
structure DB where
  alerts : List AlertRow := []
  accounts : List Account := []
deriving DecidableEq, Repr

/-- A row is active when its soft-delete marker is the zero sentinel. -/
def AlertRow.active (r : AlertRow) : Bool := decide (r.deleted_at_unix = 0)

/-- The rows with the zero soft-delete marker. -/
def DB.activeRows (db : DB) : List AlertRow := db.alerts.filter AlertRow.active

/-- What the schema keeps true of the tables: primary keys are unique, slugs are unique among
active rows, and every alert row references an existing account. -/
structure DB.WF (db : DB) : Prop where
  alertIds : (db.alerts.map (fun r => r.id)).Nodup
  accountIds : (db.accounts.map (fun a => a.ID)).Nodup
  activeSlugs : (db.activeRows.map (fun r => r.slug)).Nodup
  owners : ∀ r ∈ db.alerts, ∃ a ∈ db.accounts, a.ID = r.account_id

/-! ## The engine: INSERT -/

/-- The largest identifier in use (0 for an empty table). -/
def maxId (ids : List Nat) : Nat := ids.foldr max 0

/-- gorm saves a non-zero belongs-to association before the owner row
(`INSERT INTO accounts ... ON CONFLICT DO NOTHING`): an account without id gets the next id, an
account whose id is already present is left as stored. -/
def saveAccount (accounts : List Account) (acc : Account) : List Account × Account :=
  if acc.ID = 0 then
    let acc1 := { acc with ID := maxId (accounts.map (fun a => a.ID)) + 1 }
    (accounts ++ [acc1], acc1)
  else if accounts.any (fun x => decide (x.ID = acc.ID)) then (accounts, acc)
  else (accounts ++ [acc], acc)

/-- Modelled from the spec: the schema of table `alerts` (the migration is not among the
sources): "unique slug among rows where deletedAt = 0".  A row to insert collides when it is
active and an active row already carries its slug. -/
def slugCollides (rows : List AlertRow) (slug : String) (deletedAtUnix : Int) : Bool :=
  decide (deletedAtUnix = 0) && rows.any (fun r => decide (r.slug = slug) && r.active)

/-- The belongs-to step of `Create`: when `alert.Account` is set, gorm saves the account first
and copies its id into `AccountId`. -/
def saveBelongsTo (accounts : List Account) (alert : Alert) : List Account × Alert :=
  if alert.Account = {} then (accounts, alert)
  else
    let r := saveAccount accounts alert.Account
    (r.1, { alert with Account := r.2, AccountId := r.2.ID })

/-- The values `Create` fills in: the table assigns the next id when `ID` is 0, and gorm sets
`CreatedAt`/`UpdatedAt` that are zero to the current time. -/
def fillDefaults (rows : List AlertRow) (now : Time) (a : Alert) : Alert :=
  { a with
    ID := if a.ID = 0 then maxId (rows.map (fun r => r.id)) + 1 else a.ID
    CreatedAt := if a.CreatedAt = zeroTime then now else a.CreatedAt
    UpdatedAt := if a.UpdatedAt = zeroTime then now else a.UpdatedAt }

/-- The `INSERT INTO alerts`: the engine checks the primary key, the slug uniqueness of the
schema and the foreign key to `accounts`, in that order, and appends the row. -/
def insertRow (rows : List AlertRow) (accounts : List Account) (a : Alert) :
    Except Err (List AlertRow) :=
  if rows.any (fun r => decide (r.id = a.ID)) then
    .error (.duplicateKey "alerts_pkey")
  else if slugCollides rows a.Slug a.DeletedAtUnix then
    .error (.duplicateKey "alerts_slug")
  else if !(accounts.any (fun x => decide (x.ID = a.AccountId))) then
    .error (.foreignKey "alerts_account_id")
  else
    .ok (rows ++ [a.toRow])

/-- The statement behind `db.WithContext(ctx).Create(alert)`: the belongs-to step, the filled-in
values, the insert.  A rejected statement changes nothing (the account saved for it included:
gorm runs `Create` in a transaction of its own). -/
def gormCreate (db : DB) (now : Time) (fault : Option Err) (alert : Alert) :
    Except Err (Alert × DB) :=
  match fault with
  | some e => .error e
  | none =>
    let saved := saveBelongsTo db.accounts alert
    let a := fillDefaults db.alerts now saved.2
    match insertRow db.alerts saved.1 a with
    | .error e => .error e
    | .ok rows => .ok (a, { alerts := rows, accounts := saved.1 })

/-! ## `alertDB.SaveAlert` -/

/-- `SaveAlert` of `alert.go`: `Create`, a key-conflict error of the driver is returned as
`database.ErrKeyConflict`, any other error unchanged.  Returns the error, the alert as the
callee left it (`*alert` is written by a successful `Create`; what a failed `Create` leaves in
it is not modelled, the input is handed back) and the tables. -/
def SaveAlert (db : DB) (now : Time) (fault : Option Err) (alert : Alert) :
    Option Err × Alert × DB :=
  match gormCreate db now fault alert with
  | .error err =>
    if IsKeyConflictErr err then (some .ErrKeyConflict, alert, db)
    else (some err, alert, db)
  | .ok (saved, db1) => (none, saved, db1)

/-! ## The engine: joins, ordering, OFFSET/LIMIT -/

/-- `alerts LEFT JOIN accounts ON accounts.id = alerts.account_id`: one joined row per matching
account row, and one row with a NULL account when there is none. -/
def leftJoinAccounts (rows : List AlertRow) (accounts : List Account) :
    List (AlertRow × Option Account) :=
  rows.flatMap (fun r =>
    match accounts.filter (fun a => decide (a.ID = r.account_id)) with
    | [] => [(r, none)]
    | a :: rest => (a :: rest).map (fun x => (r, some x)))

/-- The struct scanned from a joined row; a NULL account scans as the zero `Account`. -/
def scanJoined (p : AlertRow × Option Account) : Alert :=
  match p.2 with
  | some acc => p.1.toAlert acc
  | none => p.1.toAlert {}

/-- `ORDER BY alerts.id` (ascending). -/
def orderByIdAsc (l : List Alert) : List Alert :=
  l.insertionSort (fun a b => a.ID ≤ b.ID)

/-- `ORDER BY alerts.id DESC`. -/
def orderByIdDesc (l : List Alert) : List Alert :=
  l.insertionSort (fun a b => b.ID ≤ a.ID)

/-- `ORDER BY a.id DESC` on a column of ids. -/
def sortDesc (ids : List Nat) : List Nat :=
  ids.insertionSort (fun a b => b ≤ a)

/-- The Go conversion `int(u)` of a 64-bit `uint`: values from 2^63 on wrap to negative. -/
def toInt (u : Nat) : Int :=
  if u % 2 ^ 64 < 2 ^ 63 then ((u % 2 ^ 64 : Nat) : Int) else ((u % 2 ^ 64 : Nat) : Int) - 2 ^ 64

/-- gorm's `Offset(n)`: the clause `OFFSET n` is emitted only for a positive `n` (a negative
offset cancels the clause). -/
def applyOffset {α : Type} (n : Int) (l : List α) : List α :=
  if 0 < n then l.drop n.toNat else l

/-- gorm's `Limit(n)`: the clause `LIMIT n` is emitted for a positive `n`; a negative limit
cancels the clause (and so does 0 in gorm before v1.25, the reading taken here; none of the
claims below depends on what a limit of 0 does). -/
def applyLimit {α : Type} (n : Int) (l : List α) : List α :=
  if 0 < n then l.take n.toNat else l

/-! ## `alertDB.FindAlertBySlug` -/

/-- The statement behind `Joins("Account").First(&ret, "slug = ? AND deleted_at_unix = 0", slug)`:
`SELECT ... FROM alerts LEFT JOIN accounts ... WHERE slug = ? AND deleted_at_unix = 0
ORDER BY alerts.id LIMIT 1`; no row is gorm's `ErrRecordNotFound`. -/
def gormFirstBySlug (db : DB) (fault : Option Err) (slug : String) : Except Err Alert :=
  match fault with
  | some e => .error e
  | none =>
    match orderByIdAsc ((leftJoinAccounts
        (db.alerts.filter (fun r => decide (r.slug = slug) && r.active)) db.accounts).map
        scanJoined) with
    | [] => .error .ErrRecordNotFound
    | a :: _ => .ok a

/-- `FindAlertBySlug` of `alert.go`: a record-not-found error becomes `database.ErrNotFound`
(with a nil alert), any other error is returned unchanged. -/
def FindAlertBySlug (db : DB) (fault : Option Err) (slug : String) : Except Err Alert :=
  match gormFirstBySlug db fault slug with
  | .error err =>
    if IsRecordNotFoundErr err then .error .ErrNotFound else .error err
  | .ok ret => .ok ret

/-! ## `alertDB.FindAlerts` and `alertDB.FindAlertsWithoutContext` -/

/-- The struct `IterateAlertCriteria`; the fields are Go `uint`. -/
structure IterateAlertCriteria where
  Account : Nat := 0
  Offset : Nat := 0
  Limit : Nat := 0
deriving DecidableEq, Repr

/-- Driver-level failures of the statements of one listing call: the count, the id query, the
scan of the i-th id row, the final `Find`. -/
structure FindFaults where
  count : Option Err := none
  rows : Option Err := none
  scan : Nat → Option Err := fun _ => none
  find : Option Err := none

/-- The rows selected by `chain`: `FROM alerts a WHERE deleted_at_unix = 0`, and for a non-zero
account filter `LEFT JOIN accounts au ON au.id = a.account_id WHERE au.id = ?` on top (a NULL
`au.id` does not satisfy the comparison).  One entry per joined row. -/
def chainRows (db : DB) (criteria : IterateAlertCriteria) : List AlertRow :=
  if criteria.Account ≠ 0 then
    ((leftJoinAccounts db.alerts db.accounts).filter (fun p =>
        p.1.active && (match p.2 with
          | some au => decide (au.ID = criteria.Account)
          | none => false))).map (fun p => p.1)
  else db.alerts.filter AlertRow.active

/-- The distinct values of `a.id` over the rows selected by `chain`. -/
def distinctIds (db : DB) (criteria : IterateAlertCriteria) : List Nat :=
  ((chainRows db criteria).map (fun r => r.id)).dedup

/-- `chain.Distinct("a.id").Count(&totalCount)`: `SELECT COUNT(DISTINCT(a.id))`.  Returns the
`Error` the statement leaves in `chain` and the value of `totalCount` afterwards (a failed
statement does not write it). -/
def gormCountDistinct (db : DB) (fault : Option Err) (criteria : IterateAlertCriteria) :
    Option Err × Int :=
  match fault with
  | some e => (some e, 0)
  | none => (none, ((distinctIds db criteria).length : Nat))

/-- `chain.Select("(a.id) id").Offset(o).Limit(l).Order("a.id DESC").Rows()`, on the `chain`
the count ran on: `chain` is one `*gorm.DB` value, and what the count left in it is still
there.  `chainError` is its `Error` field: gorm sends no statement through a value whose
`Error` is set, and `Rows()` returns that error.  `Distinct`, set for the count, is still in
force: `SELECT DISTINCT (a.id) id ... ORDER BY a.id DESC LIMIT l OFFSET o`. -/
def gormIdRows (db : DB) (chainError fault : Option Err) (criteria : IterateAlertCriteria)
    (offset limit : Int) : Except Err (List Nat) :=
  match chainError with
  | some e => .error e
  | none =>
    match fault with
    | some e => .error e
    | none => .ok (applyLimit limit (applyOffset offset (sortDesc (distinctIds db criteria))))

/-- The loop `for rows.Next() { rows.Scan(&id); ids = append(ids, id) }`: the first failing scan
ends the call with its error. -/
def scanIds (scan : Nat → Option Err) : Nat → List Nat → Except Err (List Nat)
  | _, [] => .ok []
  | i, id :: rest =>
    match scan i with
    | some e => .error e
    | none =>
      match scanIds scan (i + 1) rest with
      | .error e => .error e
      | .ok ids => .ok (id :: ids)

/-- `Joins("Account").Where("alerts.id IN (?)", ids).Order("alerts.id DESC").Find(&ret)`. -/
def gormFindByIds (db : DB) (fault : Option Err) (ids : List Nat) : Except Err (List Alert) :=
  match fault with
  | some e => .error e
  | none =>
    .ok (orderByIdDesc ((leftJoinAccounts
      (db.alerts.filter (fun r => decide (r.id ∈ ids))) db.accounts).map scanJoined))

/-- `FindAlerts` of `alert.go`, on the handle `database.FromContext(ctx, a.db)`.  An error of the
count is only logged and the call goes on to the id query, but that query is built on the same
`chain`, which still carries the error: `Rows()` returns it and the call ends with it.  An
error of the id query, of a scan or of the final `Find` is returned with a nil list and a zero
count. -/
def FindAlerts (db : DB) (faults : FindFaults) (criteria : IterateAlertCriteria) :
    Except Err (List Alert × Int) :=
  let count := gormCountDistinct db faults.count criteria
  let totalCount : Int := count.2
  match gormIdRows db count.1 faults.rows criteria (toInt criteria.Offset)
      (toInt criteria.Limit) with
  | .error err => .error err
  | .ok rows =>
    match scanIds faults.scan 0 rows with
    | .error err => .error err
    | .ok ids =>
      if ids.length = 0 then .ok ([], totalCount)
      else
        match gormFindByIds db faults.find ids with
        | .error err => .error err
        | .ok ret => .ok (ret, totalCount)

/-- `FindAlertsWithoutContext` of `alert.go`, on the handle `a.db`: the same three statements
without context and without logging (the branch for an error of the count is empty; the error
stays in `chain` all the same). -/
def FindAlertsWithoutContext (db : DB) (faults : FindFaults) (criteria : IterateAlertCriteria) :
    Except Err (List Alert × Int) :=
  let count := gormCountDistinct db faults.count criteria
  let totalCount : Int := count.2
  match gormIdRows db count.1 faults.rows criteria (toInt criteria.Offset)
      (toInt criteria.Limit) with
  | .error err => .error err
  | .ok rows =>
    match scanIds faults.scan 0 rows with
    | .error err => .error err
    | .ok ids =>
      if ids.length = 0 then .ok ([], totalCount)
      else
        match gormFindByIds db faults.find ids with
        | .error err => .error err
        | .ok ret => .ok (ret, totalCount)

/-! ## `alertDB.DeleteAlertBySlug` -/

/-- What gorm reports of an executed `UPDATE`: its error, the number of rows the statement
matched, and the tables afterwards. -/
structure UpdateResult where
  Error : Option Err
  RowsAffected : Nat
  db : DB

/-- The `WHERE` of the delete: `slug = ? AND deleted_at_unix = 0 AND account_id = ?`. -/
def deleteTarget (accountId : Nat) (slug : String) (r : AlertRow) : Bool :=
  decide (r.slug = slug) && r.active && decide (r.account_id = accountId)

/-- The `SET` of the delete: `deleted_at_unix = v, updated_at = now`.  gorm adds the
store-managed `updated_at` to every `Update` of a model that has the field. -/
def markDeleted (v : Int) (now : Time) (r : AlertRow) : AlertRow :=
  { r with deleted_at_unix := v, updated_at := now }

/-- The statement behind
`Model(&model.Alert{}).Where("slug = ? AND deleted_at_unix = 0", slug).Where("account_id = ?", accountId).Update("deleted_at_unix", v)`:
`UPDATE alerts SET deleted_at_unix = v, updated_at = now WHERE slug = ? AND deleted_at_unix = 0
AND account_id = ?`. -/
def gormUpdateDeletedAt (db : DB) (now : Time) (fault : Option Err) (accountId : Nat)
    (slug : String) (v : Int) : UpdateResult :=
  match fault with
  | some e => { Error := some e, RowsAffected := 0, db := db }
  | none =>
    { Error := none
      RowsAffected := (db.alerts.filter (deleteTarget accountId slug)).length
      db := { db with alerts := db.alerts.map (fun r =>
                if deleteTarget accountId slug r then markDeleted v now r else r) } }

/-- `DeleteAlertBySlug` of `alert.go`; `now` is the reading of `time.Now()`.  A statement error is
returned unchanged, zero affected rows are `database.ErrNotFound`. -/
def DeleteAlertBySlug (db : DB) (now : Time) (fault : Option Err) (accountId : Nat)
    (slug : String) : Option Err × DB :=
  let chain := gormUpdateDeletedAt db now fault accountId slug now
  match chain.Error with
  | some err => (some err, chain.db)
  | none =>
    if chain.RowsAffected = 0 then (some .ErrNotFound, chain.db)
    else (none, chain.db)

/-! ## Transactions: `alertDB.RunInTx` -/

/-- The text of an error (`err.Error()`).  `errors.Wrap(cause, msg)` reads `msg: cause`.  The
texts of the sentinels are not among the sources; nothing below depends on them. -/
def Err.Error : Err → String
  | .ErrNotFound => "record not found"
  | .ErrKeyConflict => "key conflict"
  | .ErrRecordNotFound => "record not found"
  | .duplicateKey c => "duplicate key value violates unique constraint " ++ c
  | .foreignKey c => "insert or update violates foreign key constraint " ++ c
  | .driver msg => msg
  | .wrap cause msg => msg ++ ": " ++ cause.Error
  | .errorf msg => msg

/-- The innermost error under the `errors.Wrap` layers (`errors.Cause` of pkg/errors). -/
def Err.Cause : Err → Err
  | .wrap cause _ => cause.Cause
  | e => e

/-- The database server as the process sees it: the committed tables, the open transactions
(newest first) and the number of transactions begun so far.  An open transaction is kept as
what its statements so far do to the tables; the tables seen through it are the committed ones
with that effect on top (READ COMMITTED: what another transaction commits in the meantime is
seen, and a commit keeps it).  Row locks are not modelled: where the server would make a
statement wait for another transaction, the statement runs. -/
structure World where
  committed : DB := {}
  txs : List (Nat × (DB → DB)) := []
  begun : Nat := 0

/-- A `*gorm.DB` handle: the connection pool `a.db`, or an open transaction. -/
inductive Handle where
  | pool
  | tx (id : Nat)
deriving DecidableEq, Repr

/-- The part of a `context.Context` the store reads: the transaction put there by
`database.WithDB`. -/
structure Ctx where
  tx : Option Nat := none
deriving DecidableEq, Repr

/-- Modelled from the spec: `database.WithDB` (its file is not among the sources): the context
that carries the given transaction-bound handle. -/
def WithDB (ctx : Ctx) (tx : Nat) : Ctx := { ctx with tx := some tx }

/-- Modelled from the spec: `database.FromContext` (its file is not among the sources): the
handle carried by the context, or the given default when the context carries none. -/
def FromContext (ctx : Ctx) (dflt : Handle) : Handle :=
  match ctx.tx with
  | some id => .tx id
  | none => dflt

/-- The pending effect of an open transaction. -/
def lookupTx (id : Nat) : List (Nat × (DB → DB)) → Option (DB → DB)
  | [] => none
  | (i, pending) :: rest => if i = id then some pending else lookupTx id rest

/-- The open transactions after one of them got a new pending effect. -/
def storeTx (id : Nat) (pending : DB → DB) : List (Nat × (DB → DB)) → List (Nat × (DB → DB))
  | [] => []
  | (i, p) :: rest => if i = id then (i, pending) :: rest else (i, p) :: storeTx id pending rest

/-- The open transactions without the given one. -/
def closeTx (id : Nat) (txs : List (Nat × (DB → DB))) : List (Nat × (DB → DB)) :=
  txs.filter (fun p => !decide (p.1 = id))

/-- The tables seen through a handle; `none` for a transaction that is no longer open. -/
def World.get (w : World) : Handle → Option DB
  | .pool => some w.committed
  | .tx id =>
    match lookupTx id w.txs with
    | none => none
    | some pending => some (pending w.committed)

/-- The world after statements with the given effect on the tables ran through the handle:
statements on the pool are committed at once, statements in a transaction are added to its
pending effect. -/
def World.exec (w : World) (h : Handle) (effect : DB → DB) : World :=
  match h with
  | .pool => { w with committed := effect w.committed }
  | .tx id =>
    match lookupTx id w.txs with
    | none => w
    | some pending => { w with txs := storeTx id (fun d => effect (pending d)) w.txs }

/-- The error of database/sql for a statement on a finished transaction. -/
def errTxDone : Err := .driver "sql: transaction has already been committed or rolled back"

/-- A function `f(ctx)` whose statements all go through the handle of its context
(`database.FromContext(ctx, a.db)`), as the methods of `alertDB` do: `g` is what the statements
do to the tables they see. -/
def throughHandle (g : DB → Option Err × DB) (ctx : Ctx) (w : World) : Option Err × World :=
  let h := FromContext ctx .pool
  match w.get h with
  | none => (some errTxDone, w)
  | some db => ((g db).1, w.exec h (fun d => (g d).2))

/-- Driver-level failures of the three transaction statements of one `RunInTx` call. -/
structure TxFaults where
  begin : Option Err := none
  commit : Option Err := none
  rollback : Option Err := none
deriving DecidableEq, Repr

/-- `a.db.Begin()`: a new transaction on the pool, with no statement yet. -/
def Begin (w : World) (fault : Option Err) : Except Err (Nat × World) :=
  match fault with
  | some e => .error e
  | none => .ok (w.begun, { w with txs := (w.begun, fun d => d) :: w.txs, begun := w.begun + 1 })

/-- `tx.Commit()`: the pending effect of the transaction is applied to the committed tables as
they are now.  After the call the transaction is finished, also when the call failed (nothing
is persisted then). -/
def Commit (w : World) (fault : Option Err) (tx : Nat) : Option Err × World :=
  match fault with
  | some e => (some e, { w with txs := closeTx tx w.txs })
  | none =>
    match lookupTx tx w.txs with
    | none => (some errTxDone, w)
    | some pending => (none, { w with committed := pending w.committed, txs := closeTx tx w.txs })

/-- `tx.Rollback()`: the pending effect is dropped; a failed rollback persists nothing either. -/
def Rollback (w : World) (fault : Option Err) (tx : Nat) : Option Err × World :=
  match fault with
  | some e => (some e, { w with txs := closeTx tx w.txs })
  | none =>
    match lookupTx tx w.txs with
    | none => (some errTxDone, w)
    | some _ => (none, { w with txs := closeTx tx w.txs })

/-- `RunInTx` of `alert.go`. -/
def RunInTx (w : World) (ctx : Ctx) (faults : TxFaults)
    (f : Ctx → World → Option Err × World) : Option Err × World :=
  match Begin w faults.begin with
  | .error e => (some (.wrap e "start tx"), w)
  | .ok (tx, w1) =>
    let ctx1 := WithDB ctx tx
    match f ctx1 w1 with
    | (some err, w2) =>
      match Rollback w2 faults.rollback tx with
      | (some err1, w3) => (some (.wrap err ("rollback tx: " ++ err1.Error)), w3)
      | (none, w3) => (some (.wrap err "invoke function"), w3)
    | (none, w2) =>
      match Commit w2 faults.commit tx with
      | (some err, w3) => (some (.errorf ("commit tx: " ++ err.Error)), w3)
      | (none, w3) => (none, w3)

/-! ## The evaluation pass of `StartCron` -/

/-- The payload of an oracle request: `uniswap.QueryBundles()` or `uniswap.QueryToken(address)`. -/
inductive Query where
  | bundles
  | tokens (address : String)
deriving DecidableEq, Repr

/-- `QueryBundles` of `query.go`. -/
def QueryBundles : Query := .bundles

/-- `QueryToken` of `query.go`. -/
def QueryToken (address : String) : Query := .tokens address

/-- What one `uniswap.Request` meets: the HTTP exchange fails, or a body arrives.  `prices` is
the list `json.Unmarshal` leaves in `Data.Bundles` (the `ethPrice` texts) or in `Data.Tokens`
(the `derivedETH` texts): empty for a body that is not valid JSON or lists no entry. -/
inductive Reply where
  | failed
  | body (prices : List String)
deriving DecidableEq, Repr

/-- `Request` of `request.go`, as seen by the goroutine that calls it and then reads the target
channel: the body is sent to the channel only when the exchange succeeded (`some prices`, the
decoded entries); after a failed exchange `defer response.Body.Close()` dereferences the nil
response and the goroutine panics (`none`). -/
def Request (reply : Reply) : Option (List String) :=
  match reply with
  | .failed => none
  | .body prices => some prices

/-- The price oracle during one pass: the reply to the bundle query and to the token query of
the i-th alert of the batch. -/
structure Oracle where
  bundles : Reply
  token : Nat → String → Reply

/-- The arguments of one `sendMessage` call. -/
structure Notification where
  title : String
  body : String
  token : String
deriving DecidableEq, Repr

/-- What the FCM library does with one message: `fcm.NewClient` fails, `client.Send` fails, or
the message is sent. -/
inductive FcmOutcome where
  | clientError
  | sendError
  | sent
deriving DecidableEq, Repr

/-- `sendMessage` of `cron.go`: `true` when the function returns, `false` when it ends the
process with `log.Fatalln` (an error of `fcm.NewClient` or of `client.Send`). -/
def sendMessage (fcm : Notification → FcmOutcome) (title body token : String) : Bool :=
  match fcm { title := title, body := body, token := token } with
  | .clientError => false
  | .sendError => false
  | .sent => true

/-- How the function registered with the scheduler ends: it returns, or one of its goroutines
panics (the process dies). -/
inductive PassStatus where
  | returned
  | panicked
deriving DecidableEq, Repr

/-- What one pass did: the oracle requests in order, the `sendMessage` goroutines it started in
order, those of them that end the process with `log.Fatalln`, the last texts parsed into
`ethPrice` and `tokenPrice` (the pass prints their floating-point product), and how the
function ended. -/
structure PassResult where
  requests : List Query := []
  sent : List Notification := []
  fatal : List Notification := []
  ethPrice : String := ""
  tokenPrice : String := ""
  status : PassStatus := .returned
deriving DecidableEq, Repr

/-- The loop of the second goroutine over the batch: `Request` for the token of the alert,
`tokens.Data.Tokens[0]` (a panic on an empty list), then
`go sendMessage(alert.Title, alert.Body, alert.Account.Token)`, whatever the prices are.  The
send runs in a goroutine of its own: the loop does not wait for it and goes on with the next
alert whatever the send does; a send that fails ends the process from its goroutine, at a time
of its own (`fatal`).  The record shows the steps of the loop for as long as the process
runs. -/
def tokenLoop (oracle : Oracle) (fcm : Notification → FcmOutcome) :
    Nat → List Alert → PassResult → PassResult
  | _, [], acc => acc
  | i, alert :: rest, acc =>
    let acc1 := { acc with requests := acc.requests ++ [QueryToken alert.PairAddress] }
    match Request (oracle.token i alert.PairAddress) with
    | none => { acc1 with status := .panicked }
    | some [] => { acc1 with status := .panicked }
    | some (derivedETH :: _) =>
      tokenLoop oracle fcm (i + 1) rest { acc1 with
        tokenPrice := derivedETH
        sent := acc1.sent ++
          [{ title := alert.Title, body := alert.Body, token := alert.Account.Token }]
        fatal :=
          if sendMessage fcm alert.Title alert.Body alert.Account.Token then acc1.fatal
          else acc1.fatal ++
            [{ title := alert.Title, body := alert.Body, token := alert.Account.Token }] }

/-- The function `StartCron` registers with `@every 5s`, run once: the batch is
`FindAlertsWithoutContext` with `{Account: 1, Offset: 0, Limit: 1}` (an error ends the pass);
the first goroutine requests the bundle price and reads `bundles.Data.Bundles[0]` (a panic on
an empty list); the second one waits for it and runs the loop over the batch; the function
waits for the two of them (not for the sends) and returns. -/
def cronPass (db : DB) (faults : FindFaults) (oracle : Oracle)
    (fcm : Notification → FcmOutcome) : PassResult :=
  match FindAlertsWithoutContext db faults { Account := 1, Offset := 0, Limit := 1 } with
  | .error _ => {}
  | .ok (alerts, _) =>
    match Request oracle.bundles with
    | none => { requests := [QueryBundles], status := .panicked }
    | some [] => { requests := [QueryBundles], status := .panicked }
    | some (ethPrice :: _) =>
      tokenLoop oracle fcm 0 alerts { requests := [QueryBundles], ethPrice := ethPrice }

/-- Whether the process, and the scheduler in it, is still running once the pass is over and the
sends it started have finished: a panic in the pass and a `log.Fatalln` in a send both end the
process. -/
def PassResult.processRuns (r : PassResult) : Bool :=
  decide (r.status = .returned) && r.fatal.isEmpty

/-! ## The listing in the words of the specification -/

/-- The account a row references (the zero `Account` when there is none). -/
def DB.ownerOf (db : DB) (r : AlertRow) : Account :=
  match db.accounts.find? (fun a => decide (a.ID = r.account_id)) with
  | some a => a
  | none => {}

/-- An active row whose owning account is `account` (any active row when `account` is 0). -/
def selects (account : Nat) (r : AlertRow) : Bool :=
  r.active && (decide (account = 0) || decide (r.account_id = account))

/-- The list M of the specification: the distinct active alerts whose owning account is
`account` (all active alerts when `account` is 0), each joined with its owning account, sorted
by id descending. -/
def DB.matching (db : DB) (account : Nat) : List Alert :=
  orderByIdDesc (((db.alerts.filter (selects account)).dedup).map
    (fun r => r.toAlert (db.ownerOf r)))

/-- The page `M[offset, offset+limit)`. -/
def page {α : Type} (m : List α) (offset limit : Nat) : List α :=
  (m.drop offset).take limit

/-! ## Example data -/

/-- Two accounts. -/
def user1 : Account :=
  { ID := 1, Username := "test-user1", Email := "test-user1@gmail.com", Password := "password",
    Token := "token-1" }

/-- The second account. -/
def user2 : Account :=
  { ID := 2, Username := "test-user2", Email := "test-user2@gmail.com", Password := "password",
    Token := "token-2" }

/-- A row created at time 100. -/
def exampleRow (id : Nat) (slug : String) (deletedAtUnix : Int) (owner : Nat) : AlertRow :=
  { id := id, slug := slug, title := slug, body := "body", pair_address := "0xpair",
    alert_type := "price", alert_value := "1.5", alert_option := ">=",
    expiration_time := 1000, alert_actions := "notify", alert_status := "active",
    created_at := 100, updated_at := 100, deleted_at_unix := deletedAtUnix, account_id := owner }

/-- The scenario of the specification: `a1`..`a5` active for the first account, `a6` deleted,
`a7` for the second account. -/
def scenarioDB : DB :=
  { alerts := [exampleRow 1 "a1" 0 1, exampleRow 2 "a2" 0 1, exampleRow 3 "a3" 0 1,
               exampleRow 4 "a4" 0 1, exampleRow 5 "a5" 0 1, exampleRow 6 "a6" 200 1,
               exampleRow 7 "a7" 0 2],
    accounts := [user1, user2] }

/-- A new alert as the handler builds it: no id, not deleted, owner given by `AccountId`. -/
def newAlert (slug : String) (owner : Nat) : Alert :=
  { Slug := slug, Title := slug, Body := "body", PairAddress := "0xpair", AlertType := "price",
    AlertValue := "1.5", AlertOption := ">=", ExpirationTime := 1000, AlertActions := "notify",
    AlertStatus := "active", AccountId := owner }

/-- The value of a run of decimal digits. -/
def digitsValue (cs : List Char) : Nat :=
  cs.foldl (fun n c => 10 * n + (c.toNat - 48)) 0

/-- The exact value of a decimal text such as `2000.0` or `0.001`. -/
def parseDecimal (s : String) : ℚ :=
  let cs := s.toList
  let whole := cs.takeWhile (fun c => c != '.')
  let frac := (cs.dropWhile (fun c => c != '.')).drop 1
  (digitsValue whole : ℚ) + (digitsValue frac : ℚ) / (10 : ℚ) ^ frac.length

/-- An oracle that answers the bundle query with `2000.0` and every token query with `0.001`. -/
def exampleOracle : Oracle :=
  { bundles := .body ["2000.0"], token := fun _ _ => .body ["0.001"] }

/-- The alert `a5` of the scenario as the listing returns it. -/
def alert5 : Alert := (exampleRow 5 "a5" 0 1).toAlert user1

/-- The handler's `deleteAlert` body for the first account: `DeleteAlertBySlug` at time 300. -/
def deleteA5 (db : DB) : Option Err × DB := DeleteAlertBySlug db 300 none 1 "a5"

/-! ## The listing methods on a handle -/

/-- `FindAlerts` as the method of `alertDB`: the statements run on the handle
`database.FromContext(ctx, a.db)`. -/
def alertDB.FindAlerts (w : World) (ctx : Ctx) (faults : FindFaults)
    (criteria : IterateAlertCriteria) : Except Err (List Alert × Int) :=
  match w.get (FromContext ctx .pool) with
  | none => .error errTxDone
  | some db => Kek.FindAlerts db faults criteria

/-- `FindAlertsWithoutContext` as the method of `alertDB`: the statements run on `a.db`. -/
def alertDB.FindAlertsWithoutContext (w : World) (faults : FindFaults)
    (criteria : IterateAlertCriteria) : Except Err (List Alert × Int) :=
  match w.get .pool with
  | none => .error errTxDone
  | some db => Kek.FindAlertsWithoutContext db faults criteria

/-! ## Nested `RunInTx` -/

/-- A function that calls `RunInTx` with the context it was given, as the function of an
enclosing `RunInTx` may do. -/
def nestedRunInTx (faults : TxFaults) (g : DB → Option Err × DB) (ctx : Ctx) (w : World) :
    Option Err × World :=
  RunInTx w ctx faults (throughHandle g)

/-- A function that runs `f` and, when `f` returned nil, fails with `e` afterwards. -/
def thenFail (e : Err) (f : Ctx → World → Option Err × World) (ctx : Ctx) (w : World) :
    Option Err × World :=
  match f ctx w with
  | (some err, w1) => (some err, w1)
  | (none, w1) => (some e, w1)

/-! ## The scheduler of `StartCron` -/

/-- The job wrappers of robfig/cron (`cron.WithChain`). -/
inductive JobWrapper where
  | Recover
  | DelayIfStillRunning
  | SkipIfStillRunning
deriving DecidableEq, Repr

/-- A started scheduler with its one entry: the chain of job wrappers given to `cron.New` and
the period of the entry in seconds. -/
structure Cron where
  chain : List JobWrapper
  every : Nat
deriving DecidableEq, Repr

/-- `StartCron` of `cron.go`: `cron.New(cron.WithSeconds())` (no chain), `AddFunc("@every 5s", ...)`,
`c.Start()`. -/
def StartCron : Cron := { chain := [], every := 5 }

/-- One invocation of the job: it is in progress from `start` until `finish` (seconds since
`c.Start()`). -/
structure Invocation where
  start : Nat
  finish : Nat
deriving DecidableEq, Repr

/-- An invocation is in progress at time `t`. -/
def Invocation.inProgress (p : Invocation) (t : Nat) : Bool :=
  decide (p.start ≤ t) && decide (t < p.finish)

/-- The run loop of the scheduler over its first `n` ticks; `duration k` is how long the job
started at tick `k` runs.  At every tick the entry is due and the loop calls `startJob`, which
runs the wrapped job in a goroutine of its own.  Only a wrapper changes that:
`SkipIfStillRunning` drops the invocation while an earlier one is in progress,
`DelayIfStillRunning` lets it wait for the earlier one to finish. -/
def Cron.run (c : Cron) (duration : Nat → Nat) : Nat → List Invocation
  | 0 => []
  | n + 1 =>
    let started := c.run duration n
    let now := c.every * (n + 1)
    let busyUntil := (started.map (fun p => p.finish)).foldr max 0
    if decide (JobWrapper.SkipIfStillRunning ∈ c.chain) && decide (now < busyUntil) then started
    else if decide (JobWrapper.DelayIfStillRunning ∈ c.chain) then
      started ++ [{ start := max now busyUntil, finish := max now busyUntil + duration n }]
    else started ++ [{ start := now, finish := now + duration n }]

/-! ## `NewDatabase` -/

/-- An oracle whose token price makes the computed value 0.2. -/
def lowOracle : Oracle :=
  { bundles := .body ["2000.0"], token := fun _ _ => .body ["0.0001"] }

/-- An oracle whose exchange for the token query fails. -/
def failingOracle : Oracle :=
  { bundles := .body ["2000.0"], token := fun _ _ => .failed }

/-- An oracle that knows no token: the `tokens` list of its answer is empty. -/
def unknownPairOracle : Oracle :=
  { bundles := .body ["2000.0"], token := fun _ _ => .body [] }

/-- A store without any alert of the first account. -/
def emptyBatchDB : DB :=
  { alerts := [exampleRow 7 "a7" 0 2], accounts := [user1, user2] }

/-- The alert `a4` of the scenario as the listing returns it. -/
def alert4 : Alert := (exampleRow 4 "a4" 0 1).toAlert user1

/-- A function body that saves the new alert `a8` of the second account at time 300. -/
def saveA8 (db : DB) : Option Err × DB :=
  ((SaveAlert db 300 none (newAlert "a8" 2)).1, (SaveAlert db 300 none (newAlert "a8" 2)).2.2)

theorem le_maxId (ids : List Nat) (x : Nat) (h : x ∈ ids) : x ≤ maxId ids := by
  induction ids with
  | nil => cases h
  | cons y ys ih =>
    simp only [maxId, List.foldr_cons]
    rcases List.mem_cons.mp h with rfl | h
    · exact le_max_left _ _
    · exact le_trans (ih h) (le_max_right _ _)

theorem maxId_succ_fresh (ids : List Nat) : maxId ids + 1 ∉ ids := by
  intro h
  have := le_maxId ids _ h
  omega

theorem saveAccount_mem (accounts : List Account) (acc : Account) :
    ∃ x ∈ (saveAccount accounts acc).1, x.ID = (saveAccount accounts acc).2.ID := by
  unfold saveAccount
  split_ifs with h1 h2
  · exact ⟨_, by simp, rfl⟩
  · simp only [List.any_eq_true, decide_eq_true_eq] at h2
    obtain ⟨x, hx, hxe⟩ := h2
    exact ⟨x, hx, hxe⟩
  · exact ⟨acc, by simp, rfl⟩

theorem saveAccount_sub (accounts : List Account) (acc : Account) :
    ∀ x ∈ accounts, x ∈ (saveAccount accounts acc).1 := by
  intro x hx
  unfold saveAccount
  split_ifs <;> simp [hx]

theorem saveBelongsTo_fields (accounts : List Account) (alert : Alert) :
    (saveBelongsTo accounts alert).2.Slug = alert.Slug ∧
    (saveBelongsTo accounts alert).2.Title = alert.Title ∧
    (saveBelongsTo accounts alert).2.Body = alert.Body ∧
    (saveBelongsTo accounts alert).2.DeletedAtUnix = alert.DeletedAtUnix ∧
    (saveBelongsTo accounts alert).2.ID = alert.ID := by
  unfold saveBelongsTo
  split_ifs <;> simp

theorem saveBelongsTo_sub (accounts : List Account) (alert : Alert) :
    ∀ x ∈ accounts, x ∈ (saveBelongsTo accounts alert).1 := by
  intro x hx
  unfold saveBelongsTo
  split_ifs
  · exact hx
  · exact saveAccount_sub _ _ x hx

theorem saveBelongsTo_owner (accounts : List Account) (alert : Alert)
    (h : alert.Account = {} → ∃ acc ∈ accounts, acc.ID = alert.AccountId) :
    ∃ acc ∈ (saveBelongsTo accounts alert).1, acc.ID = (saveBelongsTo accounts alert).2.AccountId := by
  unfold saveBelongsTo
  split_ifs with h0
  · exact h h0
  · exact saveAccount_mem _ _

theorem insertRow_ok (rows : List AlertRow) (accounts : List Account) (a : Alert)
    (rows1 : List AlertRow) (h : insertRow rows accounts a = .ok rows1) :
    rows1 = rows ++ [a.toRow] ∧ (∀ r ∈ rows, r.id ≠ a.ID) ∧
    slugCollides rows a.Slug a.DeletedAtUnix = false ∧
    (∃ acc ∈ accounts, acc.ID = a.AccountId) := by
  unfold insertRow at h
  split_ifs at h with h1 h2 h3
  simp only [Except.ok.injEq] at h
  refine ⟨h.symm, ?_, by simpa using h2, by simpa using h3⟩
  intro r hr
  simp only [List.any_eq_true, decide_eq_true_eq, not_exists, not_and] at h1
  exact h1 r hr

theorem insertRow_succeeds (rows : List AlertRow) (accounts : List Account) (a : Alert)
    (hid : ∀ r ∈ rows, r.id ≠ a.ID)
    (hslug : slugCollides rows a.Slug a.DeletedAtUnix = false)
    (hown : ∃ acc ∈ accounts, acc.ID = a.AccountId) :
    insertRow rows accounts a = .ok (rows ++ [a.toRow]) := by
  unfold insertRow
  have h1 : rows.any (fun r => decide (r.id = a.ID)) = false := by
    simp only [List.any_eq_false, decide_eq_true_eq]
    exact hid
  have h3 : accounts.any (fun x => decide (x.ID = a.AccountId)) = true := by
    simp only [List.any_eq_true, decide_eq_true_eq]
    exact hown
  simp [h1, hslug, h3]

/-- What a successful `Create` leaves: the alert keeps what the caller set, and its row is appended. -/
theorem gormCreate_ok (db : DB) (now : Time) (fault : Option Err) (alert a : Alert) (db1 : DB)
    (h : gormCreate db now fault alert = .ok (a, db1)) :
    fault = none ∧ a.Slug = alert.Slug ∧ a.Title = alert.Title ∧ a.Body = alert.Body ∧
    a.DeletedAtUnix = alert.DeletedAtUnix ∧
    db1.alerts = db.alerts ++ [a.toRow] ∧
    (∀ r ∈ db.alerts, r.id ≠ a.ID) ∧
    slugCollides db.alerts a.Slug a.DeletedAtUnix = false ∧
    (∃ acc ∈ db1.accounts, acc.ID = a.AccountId) ∧
    (∀ x ∈ db.accounts, x ∈ db1.accounts) := by
  unfold gormCreate at h
  cases fault with
  | some e => simp at h
  | none =>
    simp only [] at h
    split at h
    · simp at h
    · rename_i rows hins
      simp only [Except.ok.injEq, Prod.mk.injEq] at h
      obtain ⟨rfl, rfl⟩ := h
      obtain ⟨h1, h2, h3, h4⟩ := insertRow_ok _ _ _ _ hins
      obtain ⟨f1, f2, f3, f4, f5⟩ := saveBelongsTo_fields db.accounts alert
      refine ⟨rfl, ?_, ?_, ?_, ?_, h1, h2, h3, h4, saveBelongsTo_sub _ _⟩
      · simpa [fillDefaults] using f1
      · simpa [fillDefaults] using f2
      · simpa [fillDefaults] using f3
      · simpa [fillDefaults] using f4

theorem gormCreate_slug (db : DB) (now : Time) (alert : Alert)
    (hnew : alert.DeletedAtUnix = 0)
    (hactive : ∃ r ∈ db.alerts, r.slug = alert.Slug ∧ r.deleted_at_unix = 0) :
    ∃ c, gormCreate db now none alert = .error (.duplicateKey c) := by
  obtain ⟨r, hr, hslug, hdel⟩ := hactive
  obtain ⟨f1, f2, f3, f4, f5⟩ := saveBelongsTo_fields db.accounts alert
  have hcol : slugCollides db.alerts (fillDefaults db.alerts now (saveBelongsTo db.accounts alert).2).Slug
      (fillDefaults db.alerts now (saveBelongsTo db.accounts alert).2).DeletedAtUnix = true := by
    simp only [slugCollides, fillDefaults, f1, f4, hnew, decide_True, Bool.true_and, List.any_eq_true]
    exact ⟨r, hr, by simp [AlertRow.active, hslug, hdel]⟩
  unfold gormCreate insertRow
  simp only [hcol]
  split_ifs <;> exact ⟨_, rfl⟩


theorem SaveAlert_ok (db : DB) (now : Time) (fault : Option Err) (alert a : Alert) (db1 : DB)
    (h : SaveAlert db now fault alert = (none, a, db1)) :
    gormCreate db now fault alert = .ok (a, db1) := by
  unfold SaveAlert at h
  split at h
  · split_ifs at h <;> simp at h
  · rename_i saved db2 heq
    simp only [Prod.mk.injEq, true_and] at h
    rw [heq, h.1, h.2]

theorem DeleteAlertBySlug_ok (db : DB) (now : Time) (fault : Option Err) (U : Nat) (S : String)
    (db2 : DB) (h : DeleteAlertBySlug db now fault U S = (none, db2)) :
    fault = none ∧
    db2 = { db with alerts := db.alerts.map (fun r =>
              if deleteTarget U S r then markDeleted now now r else r) } ∧
    ∃ r ∈ db.alerts, deleteTarget U S r = true := by
  cases fault with
  | some e => simp [DeleteAlertBySlug, gormUpdateDeletedAt] at h
  | none =>
    simp only [DeleteAlertBySlug, gormUpdateDeletedAt] at h
    split_ifs at h with h0
    · simp at h
    simp only [Prod.mk.injEq, true_and] at h
    refine ⟨rfl, h.symm, ?_⟩
    have : (db.alerts.filter (deleteTarget U S)) ≠ [] := by
      intro hnil; exact h0 (by simp [hnil])
    obtain ⟨r, hr⟩ := List.exists_mem_of_ne_nil _ this
    exact ⟨r, (List.mem_filter.mp hr).1, (List.mem_filter.mp hr).2⟩

theorem slugCollides_false_iff (rows : List AlertRow) (slug : String) :
    slugCollides rows slug 0 = false ↔ ∀ r ∈ rows, r.slug = slug → r.active = false := by
  simp [slugCollides]

theorem gormCreate_new_succeeds (db : DB) (now : Time) (alert : Alert)
    (hid : alert.ID = 0)
    (hslug : slugCollides db.alerts alert.Slug alert.DeletedAtUnix = false)
    (hown : alert.Account = {} → ∃ acc ∈ db.accounts, acc.ID = alert.AccountId) :
    ∃ a db1, gormCreate db now none alert = .ok (a, db1) := by
  obtain ⟨f1, f2, f3, f4, f5⟩ := saveBelongsTo_fields db.accounts alert
  have hins := insertRow_succeeds db.alerts (saveBelongsTo db.accounts alert).1
    (fillDefaults db.alerts now (saveBelongsTo db.accounts alert).2)
    (by
      intro r hr
      simp only [fillDefaults, f5, hid, if_true]
      intro he
      exact maxId_succ_fresh (db.alerts.map (fun r => r.id)) (he ▸ List.mem_map_of_mem _ hr))
    (by simpa [fillDefaults, f1, f4] using hslug)
    (by simpa [fillDefaults] using saveBelongsTo_owner db.accounts alert hown)
  refine ⟨fillDefaults db.alerts now (saveBelongsTo db.accounts alert).2,
    { alerts := db.alerts ++ [(fillDefaults db.alerts now (saveBelongsTo db.accounts alert).2).toRow],
      accounts := (saveBelongsTo db.accounts alert).1 }, ?_⟩
  simp only [gormCreate, hins]


theorem map_markDeleted_none (rows : List AlertRow) (U : Nat) (S : String) (v : Int) (now : Time)
    (h : ∀ r ∈ rows, deleteTarget U S r = false) :
    rows.map (fun r => if deleteTarget U S r then markDeleted v now r else r) = rows := by
  induction rows with
  | nil => rfl
  | cons x xs ih =>
    simp only [List.map_cons, h x (List.mem_cons_self _ _), Bool.false_eq_true, if_false]
    rw [ih (fun r hr => h r (List.mem_cons_of_mem _ hr))]

theorem DeleteAlertBySlug_notFound (db : DB) (now : Time) (U : Nat) (S : String)
    (h : ∀ r ∈ db.alerts, deleteTarget U S r = false) :
    DeleteAlertBySlug db now none U S = (some .ErrNotFound, db) := by
  have hf : db.alerts.filter (deleteTarget U S) = [] := by
    simp only [List.filter_eq_nil_iff]
    intro r hr; simp [h r hr]
  simp only [DeleteAlertBySlug, gormUpdateDeletedAt, hf, List.length_nil, if_true,
    map_markDeleted_none db.alerts U S now now h]

theorem deleteTarget_unique (db : DB) (U : Nat) (S : String) (r x : AlertRow)
    (hslugs : (db.activeRows.map (fun r => r.slug)).Nodup)
    (hr : r ∈ db.alerts) (hrt : deleteTarget U S r = true)
    (hx : x ∈ db.alerts) (hxt : deleteTarget U S x = true) : x = r := by
  simp only [deleteTarget, Bool.and_eq_true, decide_eq_true_eq] at hrt hxt
  have h1 : r ∈ db.activeRows := List.mem_filter.mpr ⟨hr, hrt.1.2⟩
  have h2 : x ∈ db.activeRows := List.mem_filter.mpr ⟨hx, hxt.1.2⟩
  exact List.inj_on_of_nodup_map hslugs h2 h1 (by rw [hxt.1.1, hrt.1.1])

theorem filter_id_singleton (accounts : List Account) (a : Account)
    (hnd : (accounts.map (fun a => a.ID)).Nodup) (ha : a ∈ accounts) :
    accounts.filter (fun x => decide (x.ID = a.ID)) = [a] := by
  induction accounts with
  | nil => cases ha
  | cons y ys ih =>
    simp only [List.map_cons, List.nodup_cons, List.mem_map, not_exists, not_and] at hnd
    rcases List.mem_cons.mp ha with rfl | hmem
    · have : ys.filter (fun x => decide (x.ID = a.ID)) = [] := by
        simp only [List.filter_eq_nil_iff, decide_eq_true_eq]
        intro x hx; exact hnd.1 x hx
      simp [List.filter_cons, this]
    · have hne : ¬ y.ID = a.ID := fun h => hnd.1 a hmem h.symm
      simp [List.filter_cons, hne, ih hnd.2 hmem]

theorem find_id_some (accounts : List Account) (a : Account)
    (hnd : (accounts.map (fun a => a.ID)).Nodup) (ha : a ∈ accounts) :
    accounts.find? (fun x => decide (x.ID = a.ID)) = some a := by
  induction accounts with
  | nil => cases ha
  | cons y ys ih =>
    simp only [List.map_cons, List.nodup_cons, List.mem_map, not_exists, not_and] at hnd
    rcases List.mem_cons.mp ha with rfl | hmem
    · simp [List.find?_cons]
    · have hne : ¬ y.ID = a.ID := fun h => hnd.1 a hmem h.symm
      simp [List.find?_cons, hne, ih hnd.2 hmem]

theorem leftJoinAccounts_eq (rows : List AlertRow) (db : DB)
    (hnd : (db.accounts.map (fun a => a.ID)).Nodup)
    (hown : ∀ r ∈ rows, ∃ a ∈ db.accounts, a.ID = r.account_id) :
    leftJoinAccounts rows db.accounts = rows.map (fun r => (r, some (db.ownerOf r))) := by
  induction rows with
  | nil => rfl
  | cons r rs ih =>
    obtain ⟨a, ha, hae⟩ := hown r (List.mem_cons_self _ _)
    have h1 := filter_id_singleton db.accounts a hnd ha
    have h2 := find_id_some db.accounts a hnd ha
    rw [hae] at h1 h2
    have ih1 := ih (fun x hx => hown x (List.mem_cons_of_mem _ hx))
    simp only [leftJoinAccounts, List.flatMap_cons, List.map_cons] at ih1 ⊢
    rw [ih1, h1]
    simp [DB.ownerOf, h2]

theorem mem_leftJoinAccounts (rows : List AlertRow) (accounts : List Account)
    (p : AlertRow × Option Account) (hp : p ∈ leftJoinAccounts rows accounts) :
    p.1 ∈ rows ∧ ∀ acc, p.2 = some acc → acc ∈ accounts ∧ acc.ID = p.1.account_id := by
  simp only [leftJoinAccounts, List.mem_flatMap] at hp
  obtain ⟨r, hr, hp⟩ := hp
  split at hp
  · simp only [List.mem_singleton] at hp
    subst hp
    exact ⟨hr, by simp⟩
  · rename_i a rest heq
    simp only [List.mem_map] at hp
    obtain ⟨x, hx, rfl⟩ := hp
    refine ⟨hr, ?_⟩
    intro acc hacc
    simp only [Option.some.injEq] at hacc
    subst hacc
    have : x ∈ accounts.filter (fun a => decide (a.ID = r.account_id)) := by rw [heq]; exact hx
    simpa using List.mem_filter.mp this
theorem scanJoined_some (r : AlertRow) (a : Account) : scanJoined (r, some a) = r.toAlert a := rfl

theorem scanJoined_fields (p : AlertRow × Option Account) :
    (scanJoined p).ID = p.1.id ∧ (scanJoined p).Slug = p.1.slug ∧
    (scanJoined p).Title = p.1.title ∧ (scanJoined p).Body = p.1.body ∧
    (scanJoined p).DeletedAtUnix = p.1.deleted_at_unix ∧
    (scanJoined p).AccountId = p.1.account_id := by
  unfold scanJoined
  split <;> simp [AlertRow.toAlert]

theorem scanIds_ok (scan : Nat → Option Err) (i : Nat) (rows ids : List Nat)
    (h : scanIds scan i rows = .ok ids) : ids = rows := by
  induction rows generalizing i ids with
  | nil => simp [scanIds] at h; exact h
  | cons x xs ih =>
    simp only [scanIds] at h
    split at h
    · simp at h
    · split at h
      · simp at h
      · rename_i ids1 heq
        simp only [Except.ok.injEq] at h
        rw [← h, ih _ _ heq]

theorem scanIds_none (scan : Nat → Option Err) (hscan : ∀ i, scan i = none) (i : Nat)
    (rows : List Nat) : scanIds scan i rows = .ok rows := by
  induction rows generalizing i with
  | nil => rfl
  | cons x xs ih => simp [scanIds, hscan i, ih (i + 1)]

theorem applyOffset_sublist {α : Type} (n : Int) (l : List α) : List.Sublist (applyOffset n l) l := by
  unfold applyOffset
  split_ifs
  · exact List.drop_sublist _ _
  · exact List.Sublist.refl _

theorem applyLimit_sublist {α : Type} (n : Int) (l : List α) : List.Sublist (applyLimit n l) l := by
  unfold applyLimit
  split_ifs
  · exact List.take_sublist _ _
  · exact List.Sublist.refl _

theorem applyOffset_map {α β : Type} (f : α → β) (n : Int) (l : List α) :
    applyOffset n (l.map f) = (applyOffset n l).map f := by
  unfold applyOffset
  split_ifs <;> simp

theorem applyLimit_map {α β : Type} (f : α → β) (n : Int) (l : List α) :
    applyLimit n (l.map f) = (applyLimit n l).map f := by
  unfold applyLimit
  split_ifs <;> simp

theorem mem_chainRows (db : DB) (c : IterateAlertCriteria) (r : AlertRow)
    (h : r ∈ chainRows db c) : r ∈ db.alerts ∧ r.deleted_at_unix = 0 := by
  unfold chainRows at h
  split_ifs at h with h0
  · simp only [List.mem_map, List.mem_filter, Bool.and_eq_true] at h
    obtain ⟨p, ⟨hp, hact, -⟩, rfl⟩ := h
    exact ⟨(mem_leftJoinAccounts _ _ p hp).1, by simpa [AlertRow.active] using hact⟩
  · simp only [List.mem_filter] at h
    exact ⟨h.1, by simpa [AlertRow.active] using h.2⟩

theorem gormIdRows_ok (db : DB) (c : IterateAlertCriteria) (o l : Int)
    (chainError fault : Option Err) (ids : List Nat)
    (h : gormIdRows db chainError fault c o l = .ok ids) :
    chainError = none ∧ fault = none ∧
      ids = applyLimit l (applyOffset o (sortDesc (distinctIds db c))) := by
  unfold gormIdRows at h
  cases chainError with
  | some e => simp at h
  | none =>
    cases fault with
    | some e => simp at h
    | none =>
      simp only [Except.ok.injEq] at h
      exact ⟨rfl, rfl, h.symm⟩

theorem mem_idRows (db : DB) (c : IterateAlertCriteria) (o l : Int)
    (chainError fault : Option Err)
    (ids : List Nat) (h : gormIdRows db chainError fault c o l = .ok ids) (i : Nat)
    (hi : i ∈ ids) :
    ∃ r ∈ db.alerts, r.id = i ∧ r.deleted_at_unix = 0 := by
  obtain ⟨-, -, h⟩ := gormIdRows_ok db c o l chainError fault ids h
  subst h
  have h1 := (applyOffset_sublist o _).subset ((applyLimit_sublist l _).subset hi)
  simp only [sortDesc, List.mem_insertionSort, distinctIds, List.mem_dedup, List.mem_map] at h1
  obtain ⟨r, hr, rfl⟩ := h1
  exact ⟨r, (mem_chainRows db c r hr).1, rfl, (mem_chainRows db c r hr).2⟩

theorem mem_findByIds (db : DB) (fault : Option Err) (ids : List Nat) (pg : List Alert)
    (h : gormFindByIds db fault ids = .ok pg) (a : Alert) (ha : a ∈ pg) :
    ∃ r ∈ db.alerts, r.id ∈ ids ∧ a.ID = r.id ∧ a.DeletedAtUnix = r.deleted_at_unix ∧
      a.Slug = r.slug := by
  unfold gormFindByIds at h
  cases fault with
  | some e => simp at h
  | none =>
    simp only [Except.ok.injEq] at h
    subst h
    simp only [orderByIdDesc, List.mem_insertionSort, List.mem_map] at ha
    obtain ⟨p, hp, rfl⟩ := ha
    have h1 := (mem_leftJoinAccounts _ _ p hp).1
    simp only [List.mem_filter, decide_eq_true_eq] at h1
    obtain ⟨f1, f2, -, -, f5, -⟩ := scanJoined_fields p
    exact ⟨p.1, h1.1, h1.2, f1, f5, f2⟩

/-- What a successful listing call went through: the count did not fail. -/
theorem FindAlerts_ok (db : DB) (faults : FindFaults) (c : IterateAlertCriteria)
    (pg : List Alert) (total : Int) (h : FindAlerts db faults c = .ok (pg, total)) :
    ∃ ids, gormIdRows db none faults.rows c (toInt c.Offset) (toInt c.Limit) = .ok ids ∧
      (pg = [] ∨ gormFindByIds db faults.find ids = .ok pg) ∧
      (faults.count = none ∧ total = ((distinctIds db c).length : Nat)) := by
  unfold FindAlerts at h
  simp only [] at h
  split at h
  · simp at h
  · rename_i rows hrows
    have hcount : faults.count = none := by
      have := (gormIdRows_ok _ _ _ _ _ _ _ hrows).1
      unfold gormCountDistinct at this
      cases hc : faults.count with
      | some e => simp [hc] at this
      | none => rfl
    have hchain : (gormCountDistinct db faults.count c).1 = none := by
      simp [gormCountDistinct, hcount]
    rw [hchain] at hrows
    split at h
    · simp at h
    · rename_i ids hscan
      have hids := scanIds_ok _ _ _ _ hscan
      subst hids
      have htot : ∀ t : Int, t = (gormCountDistinct db faults.count c).2 →
          (faults.count = none ∧ t = ((distinctIds db c).length : Nat)) := by
        intro t ht
        refine ⟨hcount, ?_⟩
        simpa [gormCountDistinct, hcount] using ht
      split_ifs at h with hlen
      · simp only [Except.ok.injEq, Prod.mk.injEq] at h
        exact ⟨ids, hrows, Or.inl h.1.symm, htot _ h.2.symm⟩
      · split at h
        · simp at h
        · rename_i ret hfind
          simp only [Except.ok.injEq, Prod.mk.injEq] at h
          exact ⟨ids, hrows, Or.inr (by rw [hfind, h.1]), htot _ h.2.symm⟩
theorem filter_key_singleton {α β : Type} [DecidableEq β] (f : α → β) (l : List α) (a : α)
    (hnd : (l.map f).Nodup) (ha : a ∈ l) :
    l.filter (fun x => decide (f x = f a)) = [a] := by
  induction l with
  | nil => cases ha
  | cons y ys ih =>
    simp only [List.map_cons, List.nodup_cons, List.mem_map, not_exists, not_and] at hnd
    rcases List.mem_cons.mp ha with rfl | hmem
    · have : ys.filter (fun x => decide (f x = f a)) = [] := by
        simp only [List.filter_eq_nil_iff, decide_eq_true_eq]
        intro x hx; exact hnd.1 x hx
      simp [List.filter_cons, this]
    · have hne : ¬ f y = f a := fun h => hnd.1 a hmem h.symm
      simp [List.filter_cons, hne, ih hnd.2 hmem]

theorem ownerOf_spec (db : DB) (hwf : db.WF) (r : AlertRow) (hr : r ∈ db.alerts) :
    db.ownerOf r ∈ db.accounts ∧ (db.ownerOf r).ID = r.account_id := by
  obtain ⟨a, ha, hae⟩ := hwf.owners r hr
  have h2 := find_id_some db.accounts a hwf.accountIds ha
  rw [hae] at h2
  simp only [DB.ownerOf, h2]
  exact ⟨ha, hae⟩

theorem FindAlertBySlug_ok (db : DB) (fault : Option Err) (slug : String) (a : Alert)
    (h : FindAlertBySlug db fault slug = .ok a) :
    ∃ r ∈ db.alerts, r.slug = slug ∧ r.deleted_at_unix = 0 ∧ a.ID = r.id ∧
      a.DeletedAtUnix = 0 ∧ a.Slug = slug := by
  unfold FindAlertBySlug at h
  split at h
  · split_ifs at h
  · rename_i ret hret
    simp only [Except.ok.injEq] at h
    subst h
    unfold gormFirstBySlug at hret
    cases fault with
    | some e => simp at hret
    | none =>
      simp only [] at hret
      split at hret
      · simp at hret
      · rename_i x rest hsort
        simp only [Except.ok.injEq] at hret
        subst hret
        have hmem : x ∈ orderByIdAsc ((leftJoinAccounts
            (db.alerts.filter (fun r => decide (r.slug = slug) && r.active)) db.accounts).map
            scanJoined) := by rw [hsort]; exact List.mem_cons_self _ _
        simp only [orderByIdAsc, List.mem_insertionSort, List.mem_map] at hmem
        obtain ⟨p, hp, rfl⟩ := hmem
        have h1 := (mem_leftJoinAccounts _ _ p hp).1
        simp only [List.mem_filter, Bool.and_eq_true, decide_eq_true_eq, AlertRow.active] at h1
        obtain ⟨f1, f2, -, -, f5, -⟩ := scanJoined_fields p
        exact ⟨p.1, h1.1, h1.2.1, h1.2.2, f1, by rw [f5, h1.2.2], by rw [f2, h1.2.1]⟩

theorem FindAlertBySlug_notFound (db : DB) (slug : String)
    (h : ∀ r ∈ db.alerts, r.slug = slug → r.deleted_at_unix ≠ 0) :
    FindAlertBySlug db none slug = .error .ErrNotFound := by
  have hf : db.alerts.filter (fun r => decide (r.slug = slug) && r.active) = [] := by
    simp only [List.filter_eq_nil_iff, Bool.and_eq_true, decide_eq_true_eq, AlertRow.active,
      not_and]
    intro r hr hs; exact h r hr hs
  simp [FindAlertBySlug, gormFirstBySlug, hf, leftJoinAccounts, orderByIdAsc,
    IsRecordNotFoundErr]

theorem FindAlertBySlug_active (db : DB) (hwf : db.WF) (r : AlertRow) (hr : r ∈ db.alerts)
    (ha : r.deleted_at_unix = 0) :
    FindAlertBySlug db none r.slug = .ok (r.toAlert (db.ownerOf r)) := by
  have hact : r ∈ db.activeRows := List.mem_filter.mpr ⟨hr, by simp [AlertRow.active, ha]⟩
  have hf : db.alerts.filter (fun x => decide (x.slug = r.slug) && x.active) = [r] := by
    have := filter_key_singleton (fun x : AlertRow => x.slug) db.activeRows r hwf.activeSlugs hact
    rw [← this, DB.activeRows, List.filter_filter]
  have hj := leftJoinAccounts_eq [r] db hwf.accountIds (by
    intro x hx
    simp only [List.mem_singleton] at hx
    subst hx
    exact hwf.owners x hr)
  simp [FindAlertBySlug, gormFirstBySlug, hf, hj, orderByIdAsc, scanJoined]

theorem saveAccount_nodup (accounts : List Account) (acc : Account)
    (hnd : (accounts.map (fun a => a.ID)).Nodup) :
    ((saveAccount accounts acc).1.map (fun a => a.ID)).Nodup := by
  unfold saveAccount
  split_ifs with h1 h2
  · simp only [List.map_append, List.map_cons, List.map_nil]
    rw [List.nodup_append_comm]
    simp only [List.singleton_append, List.nodup_cons]
    exact ⟨maxId_succ_fresh _, hnd⟩
  · exact hnd
  · simp only [List.map_append, List.map_cons, List.map_nil]
    rw [List.nodup_append_comm]
    simp only [List.singleton_append, List.nodup_cons]
    refine ⟨?_, hnd⟩
    simp only [List.any_eq_true, decide_eq_true_eq, not_exists, not_and] at h2
    simp only [List.mem_map, not_exists, not_and]
    intro x hx; exact h2 x hx

theorem saveBelongsTo_nodup (accounts : List Account) (alert : Alert)
    (hnd : (accounts.map (fun a => a.ID)).Nodup) :
    ((saveBelongsTo accounts alert).1.map (fun a => a.ID)).Nodup := by
  unfold saveBelongsTo
  split_ifs
  · exact hnd
  · exact saveAccount_nodup _ _ hnd

/-- The schema invariant survives `SaveAlert`. -/
theorem SaveAlert_WF (db : DB) (hwf : db.WF) (now : Time) (fault : Option Err) (alert : Alert) :
    (SaveAlert db now fault alert).2.2.WF := by
  unfold SaveAlert
  split
  · split_ifs <;> exact hwf
  · rename_i a db1 hc
    obtain ⟨hf, c1, -, -, c4, c5, c6, c7, c8, c9⟩ := gormCreate_ok _ _ _ _ _ _ hc
    have hacc : db1.accounts = (saveBelongsTo db.accounts alert).1 := by
      subst hf
      unfold gormCreate at hc
      simp only [] at hc
      split at hc
      · simp at hc
      · simp only [Except.ok.injEq, Prod.mk.injEq] at hc
        rw [← hc.2]
    refine ⟨?_, ?_, ?_, ?_⟩
    · simp only [c5, List.map_append, List.map_cons, List.map_nil]
      rw [List.nodup_append_comm]
      simp only [List.singleton_append, List.nodup_cons, List.mem_map, not_exists, not_and]
      exact ⟨fun r hr => c6 r hr, hwf.alertIds⟩
    · rw [hacc]; exact saveBelongsTo_nodup _ _ hwf.accountIds
    · simp only [DB.activeRows, c5, List.filter_append, List.map_append]
      by_cases hact : a.toRow.active = true
      · have hd : a.DeletedAtUnix = 0 := by simpa [AlertRow.active, Alert.toRow] using hact
        rw [hd, slugCollides_false_iff] at c7
        simp only [List.filter_cons, hact, if_true, List.filter_nil, List.map_cons, List.map_nil]
        rw [List.nodup_append_comm]
        simp only [List.singleton_append, List.nodup_cons, List.mem_map, List.mem_filter,
          not_exists, not_and, and_imp]
        refine ⟨?_, hwf.activeSlugs⟩
        intro r hr hra hs
        have := c7 r hr (by simpa [Alert.toRow] using hs)
        rw [hra] at this
        cases this
      · simp only [List.filter_cons, hact, Bool.false_eq_true, if_false, List.filter_nil,
          List.map_nil, List.append_nil]
        exact hwf.activeSlugs
    · intro r hr
      rw [c5] at hr
      rcases List.mem_append.mp hr with hold | hnew
      · obtain ⟨x, hx, hxe⟩ := hwf.owners r hold
        exact ⟨x, c9 x hx, hxe⟩
      · simp only [List.mem_singleton] at hnew
        subst hnew
        exact c8

/-- The schema invariant survives `DeleteAlertBySlug`. -/
theorem DeleteAlertBySlug_WF (db : DB) (hwf : db.WF) (now : Time) (fault : Option Err)
    (U : Nat) (S : String) : (DeleteAlertBySlug db now fault U S).2.WF := by
  have hdb : (DeleteAlertBySlug db now fault U S).2 = db ∨
      (DeleteAlertBySlug db now fault U S).2 = { db with alerts := db.alerts.map (fun r =>
        if deleteTarget U S r then markDeleted now now r else r) } := by
    unfold DeleteAlertBySlug gormUpdateDeletedAt
    cases fault with
    | some e => left; rfl
    | none => right; simp only []; split_ifs <;> rfl
  rcases hdb with h | h
  · rw [h]; exact hwf
  · rw [h]
    have hid : ∀ r : AlertRow,
        (if deleteTarget U S r then markDeleted now now r else r).id = r.id := by
      intro r; split_ifs <;> rfl
    have hacc : ∀ r : AlertRow,
        (if deleteTarget U S r then markDeleted now now r else r).account_id = r.account_id := by
      intro r; split_ifs <;> rfl
    refine ⟨?_, hwf.accountIds, ?_, ?_⟩
    · simp only [List.map_map]
      have : ((fun r : AlertRow => r.id) ∘ fun r =>
          if deleteTarget U S r then markDeleted now now r else r) = fun r => r.id := by
        funext r; exact hid r
      rw [this]; exact hwf.alertIds
    · simp only [DB.activeRows]
      by_cases hnow : now = 0
      · have hmap : db.alerts.map (fun r =>
            if deleteTarget U S r then markDeleted now now r else r) =
            db.alerts.map (fun r =>
              if deleteTarget U S r then { r with updated_at := now } else r) := by
          apply List.map_congr_left
          intro r _
          split_ifs with ht
          · simp only [deleteTarget, AlertRow.active, Bool.and_eq_true, decide_eq_true_eq] at ht
            simp [markDeleted, hnow, ht.1.2]
          · rfl
        rw [hmap, List.filter_map, List.map_map]
        have h1 : (AlertRow.active ∘ fun r : AlertRow =>
            if deleteTarget U S r then { r with updated_at := now } else r) = AlertRow.active := by
          funext r; simp only [Function.comp]; split_ifs <;> rfl
        have h2 : ((fun r : AlertRow => r.slug) ∘ fun r : AlertRow =>
            if deleteTarget U S r then { r with updated_at := now } else r) = fun r => r.slug := by
          funext r; simp only [Function.comp]; split_ifs <;> rfl
        rw [h1, h2]; exact hwf.activeSlugs
      · rw [List.filter_map, List.map_map]
        have hsub : List.Sublist (db.alerts.filter (AlertRow.active ∘ fun r : AlertRow =>
            if deleteTarget U S r then markDeleted now now r else r))
            (db.alerts.filter AlertRow.active) := by
          apply List.monotone_filter_right
          intro r hr
          simp only [Function.comp] at hr
          split_ifs at hr with ht
          · simp [markDeleted, AlertRow.active, hnow] at hr
          · exact hr
        have hslug : ∀ r ∈ db.alerts.filter (AlertRow.active ∘ fun r : AlertRow =>
            if deleteTarget U S r then markDeleted now now r else r),
            ((fun r : AlertRow => r.slug) ∘ fun r : AlertRow =>
              if deleteTarget U S r then markDeleted now now r else r) r = r.slug := by
          intro r _; simp only [Function.comp]; split_ifs <;> rfl
        rw [List.map_congr_left hslug]
        exact (hsub.map _).nodup hwf.activeSlugs
    · intro r hr
      simp only [List.mem_map] at hr
      obtain ⟨r0, hr0, rfl⟩ := hr
      rw [hacc]
      exact hwf.owners r0 hr0
theorem alerts_nodup (db : DB) (hwf : db.WF) : db.alerts.Nodup :=
  List.Nodup.of_map _ hwf.alertIds

theorem row_eq_of_id (db : DB) (hwf : db.WF) (r x : AlertRow) (hr : r ∈ db.alerts)
    (hx : x ∈ db.alerts) (h : r.id = x.id) : r = x :=
  List.inj_on_of_nodup_map hwf.alertIds hr hx h

theorem chainRows_eq (db : DB) (hwf : db.WF) (c : IterateAlertCriteria) :
    chainRows db c = db.alerts.filter (selects c.Account) := by
  unfold chainRows
  split_ifs with h0
  · rw [leftJoinAccounts_eq db.alerts db hwf.accountIds hwf.owners, List.filter_map,
      List.map_map]
    have hid : ((fun p : AlertRow × Option Account => p.1) ∘ fun r => (r, some (db.ownerOf r))) =
        id := by funext r; rfl
    rw [hid, List.map_id]
    apply List.filter_congr
    intro r hr
    simp only [Function.comp, selects, h0, decide_False, Bool.false_or,
      (ownerOf_spec db hwf r hr).2]
  · apply List.filter_congr
    intro r _
    have : c.Account = 0 := by simpa using h0
    simp [selects, this]

theorem distinctIds_eq (db : DB) (hwf : db.WF) (c : IterateAlertCriteria) :
    distinctIds db c = (db.alerts.filter (selects c.Account)).map (fun r => r.id) := by
  unfold distinctIds
  rw [chainRows_eq db hwf c]
  exact List.Nodup.dedup (((List.filter_sublist _).map _).nodup hwf.alertIds)

theorem matching_eq (db : DB) (hwf : db.WF) (account : Nat) :
    db.matching account = orderByIdDesc ((db.alerts.filter (selects account)).map
      (fun r => r.toAlert (db.ownerOf r))) := by
  unfold DB.matching
  rw [List.Nodup.dedup ((alerts_nodup db hwf).filter _)]

theorem orderByIdDesc_ids (l : List Alert) :
    (orderByIdDesc l).map (fun a => a.ID) = sortDesc (l.map (fun a => a.ID)) := by
  unfold orderByIdDesc sortDesc
  exact List.map_insertionSort (r := fun a b : Alert => b.ID ≤ a.ID)
    (s := fun a b : Nat => b ≤ a) (fun a : Alert => a.ID) l (fun a _ b _ => Iff.rfl)

theorem matching_ids (db : DB) (hwf : db.WF) (account : Nat) :
    (db.matching account).map (fun a => a.ID) =
      sortDesc ((db.alerts.filter (selects account)).map (fun r => r.id)) := by
  rw [matching_eq db hwf, orderByIdDesc_ids, List.map_map]
  rfl

theorem matching_length (db : DB) (hwf : db.WF) (account : Nat) :
    (db.matching account).length = (db.alerts.filter (selects account)).length := by
  rw [matching_eq db hwf]
  simp [orderByIdDesc, List.length_insertionSort]

theorem orderByIdDesc_sorted (l : List Alert) :
    (orderByIdDesc l).Sorted (fun a b => b.ID ≤ a.ID) :=
  @List.sorted_insertionSort Alert (fun a b => b.ID ≤ a.ID) _
    ⟨fun a b => Nat.le_total b.ID a.ID⟩ ⟨fun _ _ _ h1 h2 => Nat.le_trans h2 h1⟩ l

theorem strict_of_sorted_nodup (l : List Alert) (hs : l.Sorted (fun a b => b.ID ≤ a.ID))
    (hnd : (l.map (fun a => a.ID)).Nodup) : l.Sorted (fun a b => b.ID < a.ID) := by
  have h2 : l.Pairwise (fun a b => a.ID ≠ b.ID) := by
    rw [List.Nodup, List.pairwise_map] at hnd
    exact hnd
  exact (List.Pairwise.and hs h2).imp (fun ⟨h1, h2⟩ => lt_of_le_of_ne h1 (Ne.symm h2))

theorem orderByIdDesc_eq_of_perm (x p : List Alert) (hperm : x.Perm p)
    (hs : p.Sorted (fun a b => b.ID ≤ a.ID)) (hnd : (p.map (fun a => a.ID)).Nodup) :
    orderByIdDesc x = p := by
  have hp1 : (orderByIdDesc x).Perm p := (List.perm_insertionSort _ x).trans hperm
  have hnd1 : ((orderByIdDesc x).map (fun a => a.ID)).Nodup :=
    ((hp1.map _).nodup_iff).mpr hnd
  haveI : IsAntisymm Alert (fun a b => b.ID < a.ID) :=
    ⟨fun a b h1 h2 => absurd h1 (Nat.lt_asymm h2)⟩
  exact List.eq_of_perm_of_sorted hp1
    (strict_of_sorted_nodup _ (orderByIdDesc_sorted x) hnd1)
    (strict_of_sorted_nodup _ hs hnd)

theorem toAlert_injective (db : DB) :
    Function.Injective (fun r : AlertRow => r.toAlert (db.ownerOf r)) := by
  intro r x h
  have : (r.toAlert (db.ownerOf r)).toRow = (x.toAlert (db.ownerOf x)).toRow := by
    simp only [] at h; rw [h]
  cases r; cases x
  simpa [AlertRow.toAlert, Alert.toRow] using this

/-- The final `Find` by the ids of a part of M gives back that part. -/
theorem gormFindByIds_sublist (db : DB) (hwf : db.WF) (account : Nat) (p : List Alert)
    (hsub : List.Sublist p (db.matching account)) :
    gormFindByIds db none (p.map (fun a => a.ID)) = .ok p := by
  have hM := matching_eq db hwf account
  have hMnd : ((db.matching account).map (fun a => a.ID)).Nodup := by
    rw [matching_ids db hwf]
    exact ((List.perm_insertionSort _ _).nodup_iff).mpr
      (((List.filter_sublist _).map _).nodup hwf.alertIds)
  have hpnd : (p.map (fun a => a.ID)).Nodup := (hsub.map _).nodup hMnd
  have hps : p.Sorted (fun a b => b.ID ≤ a.ID) := by
    have := orderByIdDesc_sorted ((db.alerts.filter (selects account)).map
      (fun r => r.toAlert (db.ownerOf r)))
    rw [← hM] at this
    exact List.Pairwise.sublist hsub this
  have hmemM : ∀ a, a ∈ db.matching account ↔
      ∃ r ∈ db.alerts, selects account r = true ∧ r.toAlert (db.ownerOf r) = a := by
    intro a
    rw [hM]
    simp only [orderByIdDesc, List.mem_insertionSort, List.mem_map, List.mem_filter]
    constructor
    · rintro ⟨r, ⟨h1, h2⟩, h3⟩; exact ⟨r, h1, h2, h3⟩
    · rintro ⟨r, h1, h2, h3⟩; exact ⟨r, ⟨h1, h2⟩, h3⟩
  have hrows : ∀ r ∈ db.alerts.filter (fun r => decide (r.id ∈ p.map (fun a => a.ID))),
      ∃ a ∈ db.accounts, a.ID = r.account_id :=
    fun r hr => hwf.owners r (List.mem_filter.mp hr).1
  unfold gormFindByIds
  simp only [leftJoinAccounts_eq _ db hwf.accountIds hrows, List.map_map]
  have hcomp : (scanJoined ∘ fun r => (r, some (db.ownerOf r))) =
      fun r : AlertRow => r.toAlert (db.ownerOf r) := by funext r; rfl
  rw [hcomp]
  congr 1
  apply orderByIdDesc_eq_of_perm _ _ _ hps hpnd
  rw [List.perm_ext_iff_of_nodup
    (((alerts_nodup db hwf).filter _).map (toAlert_injective db))
    (List.Nodup.of_map _ hpnd)]
  intro a
  simp only [List.mem_map, List.mem_filter, decide_eq_true_eq]
  constructor
  · rintro ⟨r, ⟨hr, a1, ha1, hid⟩, rfl⟩
    obtain ⟨r1, hr1, -, rfl⟩ := (hmemM a1).mp (hsub.subset ha1)
    have : r1 = r := row_eq_of_id db hwf r1 r hr1 hr (by simpa [AlertRow.toAlert] using hid)
    subst this
    exact ha1
  · intro ha
    obtain ⟨r1, hr1, -, rfl⟩ := (hmemM a).mp (hsub.subset ha)
    exact ⟨r1, ⟨hr1, _, ha, rfl⟩, rfl⟩

/-- With no failing statement, `FindAlerts` returns the part of M that gorm's `Offset` and
`Limit` cut out, and the length of M. -/
theorem FindAlerts_eq (db : DB) (hwf : db.WF) (faults : FindFaults) (c : IterateAlertCriteria)
    (hcount : faults.count = none)
    (hrows : faults.rows = none) (hscan : ∀ i, faults.scan i = none)
    (hfind : faults.find = none) :
    FindAlerts db faults c =
      .ok (applyLimit (toInt c.Limit) (applyOffset (toInt c.Offset) (db.matching c.Account)),
           ((db.matching c.Account).length : Nat)) := by
  have hids : applyLimit (toInt c.Limit) (applyOffset (toInt c.Offset)
      (sortDesc (distinctIds db c))) =
      (applyLimit (toInt c.Limit) (applyOffset (toInt c.Offset) (db.matching c.Account))).map
        (fun a => a.ID) := by
    rw [distinctIds_eq db hwf, ← matching_ids db hwf, applyOffset_map, applyLimit_map]
  have hsub : List.Sublist
      (applyLimit (toInt c.Limit) (applyOffset (toInt c.Offset) (db.matching c.Account)))
      (db.matching c.Account) :=
    (applyLimit_sublist _ _).trans (applyOffset_sublist _ _)
  have htot : gormCountDistinct db faults.count c =
      (none, (((db.matching c.Account).length : Nat) : Int)) := by
    unfold gormCountDistinct
    simp [hcount, distinctIds_eq db hwf, matching_length db hwf]
  unfold FindAlerts
  simp only [htot, gormIdRows, hrows, hids, scanIds_none _ hscan, hfind,
    gormFindByIds_sublist db hwf c.Account _ hsub]
  split_ifs with hlen
  · simp only [List.length_map, List.length_eq_zero] at hlen
    rw [hlen]
  · rfl

theorem FindAlerts_page_active (db : DB) (hids : (db.alerts.map (fun r => r.id)).Nodup)
    (faults : FindFaults) (c : IterateAlertCriteria) (pg : List Alert) (total : Int)
    (h : FindAlerts db faults c = .ok (pg, total)) (a : Alert) (ha : a ∈ pg) :
    ∃ r ∈ db.alerts, a.ID = r.id ∧ r.deleted_at_unix = 0 ∧ a.DeletedAtUnix = 0 ∧
      a.Slug = r.slug := by
  obtain ⟨ids, hrows, hpg, -⟩ := FindAlerts_ok db faults c pg total h
  rcases hpg with hnil | hfind
  · rw [hnil] at ha; cases ha
  · obtain ⟨r, hr, hrid, e1, e2, e3⟩ := mem_findByIds db _ ids pg hfind a ha
    obtain ⟨r1, hr1, hid1, hd1⟩ := mem_idRows db c _ _ _ _ ids hrows r.id hrid
    have : r1 = r := List.inj_on_of_nodup_map hids hr1 hr hid1
    subst this
    exact ⟨r1, hr, e1, hd1, by rw [e2, hd1], e3⟩


theorem throughHandle_begun (g : DB → Option Err × DB) (ctx : Ctx) (w : World) :
    throughHandle g (WithDB ctx w.begun)
      { w with txs := (w.begun, fun d => d) :: w.txs, begun := w.begun + 1 } =
    ((g w.committed).1,
      { w with txs := (w.begun, fun d => (g d).2) :: w.txs, begun := w.begun + 1 }) := by
  simp [throughHandle, WithDB, FromContext, World.get, World.exec, lookupTx, storeTx]

/-- `RunInTx` around a function that works through the handle of its context, case by case. -/
theorem RunInTx_throughHandle (w : World) (ctx : Ctx) (faults : TxFaults)
    (g : DB → Option Err × DB) :
    RunInTx w ctx faults (throughHandle g) =
      match faults.begin with
      | some e => (some (.wrap e "start tx"), w)
      | none =>
        match (g w.committed).1 with
        | some err =>
          (some (.wrap err (match faults.rollback with
              | some err1 => "rollback tx: " ++ err1.Error
              | none => "invoke function")),
            { w with txs := closeTx w.begun ((w.begun, fun d => (g d).2) :: w.txs),
                     begun := w.begun + 1 })
        | none =>
          match faults.commit with
          | some err =>
            (some (.errorf ("commit tx: " ++ err.Error)),
              { w with txs := closeTx w.begun ((w.begun, fun d => (g d).2) :: w.txs),
                       begun := w.begun + 1 })
          | none =>
            (none,
              { committed := (g w.committed).2,
                txs := closeTx w.begun ((w.begun, fun d => (g d).2) :: w.txs),
                begun := w.begun + 1 }) := by
  unfold RunInTx Begin
  cases hb : faults.begin with
  | some e => rfl
  | none =>
    simp only [throughHandle_begun]
    cases hg : (g w.committed).1 with
    | some err =>
      simp only [Rollback]
      cases hr : faults.rollback with
      | some err1 => rfl
      | none => simp [lookupTx]
    | none =>
      simp only [Commit]
      cases hc : faults.commit with
      | some err => rfl
      | none => simp [lookupTx]


theorem FindAlertsWithoutContext_eq_FindAlerts (db : DB) (faults : FindFaults)
    (c : IterateAlertCriteria) : FindAlertsWithoutContext db faults c = FindAlerts db faults c :=
  rfl

theorem filter_ids_length (db : DB) (hwf : db.WF) (ids : List Nat) :
    (db.alerts.filter (fun r => decide (r.id ∈ ids))).length ≤ ids.length := by
  have hnd : ((db.alerts.filter (fun r => decide (r.id ∈ ids))).map (fun r => r.id)).Nodup :=
    ((List.filter_sublist _).map _).nodup hwf.alertIds
  have hsub : (db.alerts.filter (fun r => decide (r.id ∈ ids))).map (fun r => r.id) ⊆ ids := by
    intro i hi
    simp only [List.mem_map, List.mem_filter, decide_eq_true_eq] at hi
    obtain ⟨r, ⟨-, h⟩, rfl⟩ := hi
    exact h
  have := (List.subperm_of_subset hnd hsub).length_le
  simpa using this

theorem applyLimit_length {α : Type} (n : Int) (hn : 0 < n) (l : List α) :
    (applyLimit n l).length ≤ n.toNat := by
  simp [applyLimit, hn, List.length_take]

/-- A page is never longer than a positive limit. -/
theorem FindAlerts_length_le (db : DB) (hwf : db.WF) (faults : FindFaults)
    (c : IterateAlertCriteria) (pg : List Alert) (total : Int)
    (h : FindAlerts db faults c = .ok (pg, total)) (hl : 0 < toInt c.Limit) :
    pg.length ≤ (toInt c.Limit).toNat := by
  obtain ⟨ids, hrows, hpg, -⟩ := FindAlerts_ok db faults c pg total h
  rcases hpg with hnil | hfind
  · rw [hnil]; exact Nat.zero_le _
  · have hidl : ids.length ≤ (toInt c.Limit).toNat := by
      rw [(gormIdRows_ok _ _ _ _ _ _ _ hrows).2.2]
      exact applyLimit_length _ hl _
    unfold gormFindByIds at hfind
    cases hf : faults.find with
    | some e => simp [hf] at hfind
    | none =>
      simp only [hf, Except.ok.injEq] at hfind
      rw [← hfind]
      have hrows1 : ∀ r ∈ db.alerts.filter (fun r => decide (r.id ∈ ids)),
          ∃ a ∈ db.accounts, a.ID = r.account_id :=
        fun r hr => hwf.owners r (List.mem_filter.mp hr).1
      simp only [orderByIdDesc, List.length_insertionSort, List.length_map,
        leftJoinAccounts_eq _ db hwf.accountIds hrows1]
      exact le_trans (filter_ids_length db hwf ids) hidl

theorem tokenLoop_single (oracle : Oracle) (fcm : Notification → FcmOutcome) (a : Alert)
    (acc : PassResult) (d : String) (ds : List String)
    (h : oracle.token 0 a.PairAddress = .body (d :: ds)) :
    (tokenLoop oracle fcm 0 [a] acc).sent =
      acc.sent ++ [{ title := a.Title, body := a.Body, token := a.Account.Token }] := by
  simp only [tokenLoop, h, Request]

theorem toInt_of_lt (u : Nat) (h : u < 2 ^ 63) : toInt u = (u : Int) := by
  have h1 : u % 2 ^ 64 = u := Nat.mod_eq_of_lt (by omega)
  unfold toInt
  rw [h1, if_pos h]

theorem applyOffset_toInt {α : Type} (o : Nat) (h : o < 2 ^ 63) (l : List α) :
    applyOffset (toInt o) l = l.drop o := by
  rw [toInt_of_lt o h]
  unfold applyOffset
  split_ifs with h0
  · simp
  · have : o = 0 := by omega
    subst this; rfl

theorem applyLimit_toInt {α : Type} (n : Nat) (h0 : 0 < n) (h : n < 2 ^ 63) (l : List α) :
    applyLimit (toInt n) l = l.take n := by
  rw [toInt_of_lt n h]
  unfold applyLimit
  have : (0 : Int) < (n : Int) := by omega
  simp [this]

/-- Pagination: for an offset and a positive limit below 2^63 and no failing statement,
`FindAlerts` returns the page `M[Offset, Offset+Limit)` and the length of M. -/
theorem FindAlerts_page (db : DB) (hwf : db.WF) (faults : FindFaults)
    (c : IterateAlertCriteria) (hcount : faults.count = none) (hrows : faults.rows = none)
    (hscan : ∀ i, faults.scan i = none) (hfind : faults.find = none)
    (ho : c.Offset < 2 ^ 63) (hl0 : 0 < c.Limit) (hl : c.Limit < 2 ^ 63) :
    FindAlerts db faults c =
      .ok (page (db.matching c.Account) c.Offset c.Limit,
           ((db.matching c.Account).length : Nat)) := by
  rw [FindAlerts_eq db hwf faults c hcount hrows hscan hfind, applyOffset_toInt _ ho,
    applyLimit_toInt _ hl0 hl]
  rfl

/-- The pages at offsets 0, L, 2L, ... put one after the other are the beginning of the list:
nothing is repeated and nothing is left out. -/
theorem pages_concat {α : Type} (m : List α) (L : Nat) (k : Nat) :
    (List.range k).flatMap (fun i => page m (i * L) L) = m.take (k * L) := by
  induction k with
  | zero => simp
  | succ n ih =>
    rw [List.range_succ, List.flatMap_append, ih]
    simp only [List.flatMap_cons, List.flatMap_nil, List.append_nil, page]
    rw [Nat.succ_mul, List.take_add]

/-- Enough pages give the whole list. -/
theorem pages_cover {α : Type} (m : List α) (L : Nat) (k : Nat) (hk : m.length ≤ k * L) :
    (List.range k).flatMap (fun i => page m (i * L) L) = m := by
  rw [pages_concat, List.take_of_length_le hk]

/-- The first page has `min L N` rows. -/
theorem first_page_length {α : Type} (m : List α) (L : Nat) :
    (page m 0 L).length = min L m.length := by
  simp [page]

/-! ## The claims -/

/-- C1: in every store state that holds an active alert (zero soft-delete marker) with slug S,
`SaveAlert` of a new (not deleted) alert whose slug is S, once the engine has executed the
insert, returns exactly `database.ErrKeyConflict` and leaves the tables as they were. -/
theorem C1_SaveAlert_active_slug_conflict (db : DB) (now : Time) (alert : Alert)
    (hnew : alert.DeletedAtUnix = 0)
    (hactive : ∃ r ∈ db.alerts, r.slug = alert.Slug ∧ r.deleted_at_unix = 0) :
    (SaveAlert db now none alert).1 = some .ErrKeyConflict ∧
    (SaveAlert db now none alert).2.2 = db := by
  obtain ⟨c, hc⟩ := gormCreate_slug db now alert hnew hactive
  simp [SaveAlert, hc, IsKeyConflictErr]

/-- C1 at the scenario: saving a second `a1` for the first account. -/
theorem C1_witness :
    ((newAlert "a1" 1).DeletedAtUnix = 0 ∧
      ∃ r ∈ scenarioDB.alerts, r.slug = (newAlert "a1" 1).Slug ∧ r.deleted_at_unix = 0) ∧
    (SaveAlert scenarioDB 300 none (newAlert "a1" 1)).1 = some .ErrKeyConflict ∧
    (SaveAlert scenarioDB 300 none (newAlert "a1" 1)).2.2 = scenarioDB :=
  ⟨⟨by decide, by decide⟩,
   C1_SaveAlert_active_slug_conflict scenarioDB 300 (newAlert "a1" 1) (by decide) (by decide)⟩

/-- C2: an alert A with slug S is saved as an active alert and then soft-deleted by
`DeleteAlertBySlug` for its owner (at a clock reading other than 0); then no active row has
slug S, and `SaveAlert` of a new alert B with slug S (no id yet, not deleted, owned by an
existing account) returns no error, and the row of B is stored and active. -/
theorem C2_SaveAlert_after_soft_delete (db db1 db2 : DB) (t1 t2 t3 : Time) (A a1 B : Alert)
    (hA : A.DeletedAtUnix = 0)
    (hsave : SaveAlert db t1 none A = (none, a1, db1))
    (ht2 : t2 ≠ 0)
    (hdel : DeleteAlertBySlug db1 t2 none a1.AccountId A.Slug = (none, db2))
    (hslug : B.Slug = A.Slug) (hid : B.ID = 0) (hact : B.DeletedAtUnix = 0)
    (hown : B.Account = {} → ∃ acc ∈ db2.accounts, acc.ID = B.AccountId) :
    (∀ r ∈ db2.alerts, r.slug = A.Slug → r.active = false) ∧
    ∃ b db3, SaveAlert db2 t3 none B = (none, b, db3) ∧
      b.Slug = A.Slug ∧ b.DeletedAtUnix = 0 ∧ b.toRow ∈ db3.alerts := by
  obtain ⟨-, c1, -, -, c4, c5, -, c7, -, -⟩ :=
    gormCreate_ok _ _ _ _ _ _ (SaveAlert_ok _ _ _ _ _ _ hsave)
  obtain ⟨-, d1, -⟩ := DeleteAlertBySlug_ok _ _ _ _ _ _ hdel
  rw [c4, hA, c1, slugCollides_false_iff] at c7
  have hnone : ∀ r ∈ db2.alerts, r.slug = A.Slug → r.active = false := by
    intro r hr hs
    rw [d1] at hr
    simp only [List.mem_map] at hr
    obtain ⟨r0, hr0, rfl⟩ := hr
    by_cases hhit : deleteTarget a1.AccountId A.Slug r0 = true
    · simp [hhit, markDeleted, AlertRow.active, ht2]
    · simp only [hhit] at hs ⊢
      simp only [Bool.false_eq_true, if_false] at hs ⊢
      rw [c5] at hr0
      rcases List.mem_append.mp hr0 with hold | hnew
      · exact c7 r0 hold hs
      · exfalso
        simp only [List.mem_singleton] at hnew
        apply hhit
        subst hnew
        simp [deleteTarget, Alert.toRow, AlertRow.active, c1, c4, hA]
  refine ⟨hnone, ?_⟩
  obtain ⟨b, db3, hb⟩ := gormCreate_new_succeeds db2 t3 B hid
    (by rw [hact, hslug, slugCollides_false_iff]; exact hnone) hown
  obtain ⟨-, e1, -, -, e4, e5, -⟩ := gormCreate_ok _ _ _ _ _ _ hb
  refine ⟨b, db3, by simp [SaveAlert, hb], by rw [e1, hslug], by rw [e4, hact], ?_⟩
  rw [e5]; simp

/-- C2 at the scenario: `a8` is saved at time 300, deleted at 400 and saved again at 500. -/
theorem C2_witness :
    ∃ b db3, SaveAlert
        (DeleteAlertBySlug (SaveAlert scenarioDB 300 none (newAlert "a8" 1)).2.2 400 none 1
          "a8").2 500 none (newAlert "a8" 1) = (none, b, db3) ∧
      b.Slug = "a8" ∧ b.DeletedAtUnix = 0 ∧ b.toRow ∈ db3.alerts :=
  (C2_SaveAlert_after_soft_delete scenarioDB
    (SaveAlert scenarioDB 300 none (newAlert "a8" 1)).2.2
    (DeleteAlertBySlug (SaveAlert scenarioDB 300 none (newAlert "a8" 1)).2.2 400 none 1 "a8").2
    300 400 500 (newAlert "a8" 1) (SaveAlert scenarioDB 300 none (newAlert "a8" 1)).2.1
    (newAlert "a8" 1) (by decide) (by decide) (by decide) (by decide) (by decide) (by decide)
    (by decide) (fun _ => by decide)).2

/-- C3: when no row has slug S, or every row with slug S is owned by an account other than U,
or every row with slug S owned by U is already soft-deleted, `DeleteAlertBySlug(U, S)`, once
the engine has executed the update, returns the same `database.ErrNotFound` in all three cases
and leaves every row unchanged. -/
theorem C3_DeleteAlertBySlug_not_found (db : DB) (now : Time) (U : Nat) (S : String)
    (h : (∀ r ∈ db.alerts, r.slug ≠ S) ∨
         (∀ r ∈ db.alerts, r.slug = S → r.account_id ≠ U) ∨
         (∀ r ∈ db.alerts, r.slug = S → r.account_id = U → r.deleted_at_unix ≠ 0)) :
    DeleteAlertBySlug db now none U S = (some .ErrNotFound, db) := by
  apply DeleteAlertBySlug_notFound
  intro r hr
  simp only [deleteTarget, AlertRow.active, Bool.and_eq_false_imp, Bool.and_eq_true,
    decide_eq_true_eq, decide_eq_false_iff_not]
  rintro ⟨hs, hd⟩ hu
  rcases h with h | h | h
  · exact h r hr hs
  · exact h r hr hs hu
  · exact h r hr hs hu hd

/-- C3 at the scenario, one call per cause: an unknown slug, the slug of another account, an
already deleted alert. -/
theorem C3_witness :
    DeleteAlertBySlug scenarioDB 300 none 1 "not-exist-slug" = (some .ErrNotFound, scenarioDB) ∧
    DeleteAlertBySlug scenarioDB 300 none 1 "a7" = (some .ErrNotFound, scenarioDB) ∧
    DeleteAlertBySlug scenarioDB 300 none 1 "a6" = (some .ErrNotFound, scenarioDB) :=
  ⟨C3_DeleteAlertBySlug_not_found scenarioDB 300 1 "not-exist-slug" (Or.inl (by decide)),
   C3_DeleteAlertBySlug_not_found scenarioDB 300 1 "a7" (Or.inr (Or.inl (by decide))),
   C3_DeleteAlertBySlug_not_found scenarioDB 300 1 "a6" (Or.inr (Or.inr (by decide)))⟩

/-- C4, as stated, fails: deleting `a5` of the scenario at time 300 returns no error, but the
row does not only get the marker: its `updated_at` moves from 100 to 300 as well. -/
theorem C4_counterexample :
    (DeleteAlertBySlug scenarioDB 300 none 1 "a5").1 = none ∧
    { exampleRow 5 "a5" 0 1 with deleted_at_unix := 300 } ∉
      (DeleteAlertBySlug scenarioDB 300 none 1 "a5").2.alerts ∧
    (DeleteAlertBySlug scenarioDB 300 none 1 "a5").2.alerts.map (fun r => r.updated_at) =
      [100, 100, 100, 100, 300, 100, 100] := by
  decide

/-- C4, amended: when an active alert with slug S owned by U exists (slugs being unique among
active rows), `DeleteAlertBySlug(U, S)`, once the engine has executed the update, returns no
error, sets the soft-delete marker of exactly that row to the current Unix time and its
store-managed `updated_at` to the current time, changes no other field of that row and no
other row, and removes no row. -/
theorem C4_DeleteAlertBySlug_frame (db : DB) (now : Time) (U : Nat) (S : String) (r : AlertRow)
    (hslugs : (db.activeRows.map (fun r => r.slug)).Nodup)
    (hr : r ∈ db.alerts) (hs : r.slug = S) (ha : r.deleted_at_unix = 0) (hu : r.account_id = U) :
    DeleteAlertBySlug db now none U S =
      (none, { alerts := db.alerts.map (fun x =>
                 if x = r then { r with deleted_at_unix := now, updated_at := now } else x),
               accounts := db.accounts }) ∧
    (DeleteAlertBySlug db now none U S).2.alerts.length = db.alerts.length := by
  have hrt : deleteTarget U S r = true := by simp [deleteTarget, AlertRow.active, hs, ha, hu]
  have hf : (db.alerts.filter (deleteTarget U S)).length ≠ 0 := by
    have : r ∈ db.alerts.filter (deleteTarget U S) := List.mem_filter.mpr ⟨hr, hrt⟩
    intro h0
    rw [List.length_eq_zero] at h0
    rw [h0] at this
    cases this
  have hmap : db.alerts.map (fun x => if deleteTarget U S x then markDeleted now now x else x) =
      db.alerts.map (fun x =>
        if x = r then { r with deleted_at_unix := now, updated_at := now } else x) := by
    apply List.map_congr_left
    intro x hx
    by_cases hxr : x = r
    · subst hxr; simp [hrt, markDeleted]
    · have : deleteTarget U S x = false := by
        by_contra hc
        exact hxr (deleteTarget_unique db U S r x hslugs hr hrt hx (by simpa using hc))
      simp [this, hxr]
  have hres : DeleteAlertBySlug db now none U S =
      (none, { alerts := db.alerts.map (fun x =>
                 if x = r then { r with deleted_at_unix := now, updated_at := now } else x),
               accounts := db.accounts }) := by
    simp only [DeleteAlertBySlug, gormUpdateDeletedAt, hf, if_false, hmap]
  refine ⟨hres, ?_⟩
  rw [hres]; simp

/-- C4 (amended) at the scenario: deleting `a5` for the first account at time 300. -/
theorem C4_witness :
    ((scenarioDB.activeRows.map (fun r => r.slug)).Nodup ∧
      exampleRow 5 "a5" 0 1 ∈ scenarioDB.alerts) ∧
    DeleteAlertBySlug scenarioDB 300 none 1 "a5" =
      (none, { alerts := scenarioDB.alerts.map (fun x =>
                 if x = exampleRow 5 "a5" 0 1 then
                   { exampleRow 5 "a5" 0 1 with deleted_at_unix := 300, updated_at := 300 }
                 else x),
               accounts := scenarioDB.accounts }) :=
  ⟨⟨by decide, by decide⟩,
   (C4_DeleteAlertBySlug_frame scenarioDB 300 1 "a5" (exampleRow 5 "a5" 0 1) (by decide)
     (by decide) (by decide) (by decide) (by decide)).1⟩

/-- The reads never show a soft-deleted row: `FindAlertBySlug` does not return it,
`FindAlerts` neither has it on the page nor among the ids it counts. -/
theorem deleted_row_unseen (db : DB) (hids : (db.alerts.map (fun r => r.id)).Nodup)
    (d : AlertRow) (hd : d ∈ db.alerts) (hdel : d.deleted_at_unix ≠ 0) :
    (∀ fault a, FindAlertBySlug db fault d.slug = .ok a → a.ID ≠ d.id ∧ a.DeletedAtUnix = 0) ∧
    (∀ faults criteria pg total, FindAlerts db faults criteria = .ok (pg, total) →
      (∀ a ∈ pg, a.ID ≠ d.id ∧ a.DeletedAtUnix = 0) ∧
      d.id ∉ distinctIds db criteria ∧
      total = ((distinctIds db criteria).length : Nat)) := by
  have hne : ∀ r ∈ db.alerts, r.deleted_at_unix = 0 → r.id ≠ d.id := by
    intro r hr h0 hid
    have : r = d := List.inj_on_of_nodup_map hids hr hd hid
    subst this
    exact hdel h0
  refine ⟨?_, ?_⟩
  · intro fault a h
    obtain ⟨r, hr, -, h0, hid, ha0, -⟩ := FindAlertBySlug_ok db fault d.slug a h
    exact ⟨by rw [hid]; exact hne r hr h0, ha0⟩
  · intro faults criteria pg total h
    refine ⟨?_, ?_, ?_⟩
    · intro a ha
      obtain ⟨r, hr, hid, h0, ha0, -⟩ :=
        FindAlerts_page_active db hids faults criteria pg total h a ha
      exact ⟨by rw [hid]; exact hne r hr h0, ha0⟩
    · intro hmem
      simp only [distinctIds, List.mem_dedup, List.mem_map] at hmem
      obtain ⟨r, hr, hid⟩ := hmem
      exact hne r (mem_chainRows db criteria r hr).1 (mem_chainRows db criteria r hr).2 hid
    · obtain ⟨_, -, -, ht⟩ := FindAlerts_ok db faults criteria pg total h
      exact ht.2

/-- C5: in every store state (ids being unique) and for every soft-deleted alert d (non-zero
marker): `FindAlertBySlug` with the slug of d never returns d, and returns
`database.ErrNotFound` when no active alert has that slug; no `FindAlerts` call, whatever the
criteria, has d on its page or among the ids its total counts.  The same holds of the reads on
the state a successful `DeleteAlertBySlug` (at a clock reading other than 0) has just left, for
every row that call deleted. -/
theorem C5_deleted_never_read (db : DB) (hids : (db.alerts.map (fun r => r.id)).Nodup)
    (d : AlertRow) (hd : d ∈ db.alerts) (hdel : d.deleted_at_unix ≠ 0) :
    (∀ fault a, FindAlertBySlug db fault d.slug = .ok a → a.ID ≠ d.id ∧ a.DeletedAtUnix = 0) ∧
    ((∀ r ∈ db.alerts, r.slug = d.slug → r.deleted_at_unix ≠ 0) →
      FindAlertBySlug db none d.slug = .error .ErrNotFound) ∧
    (∀ faults criteria pg total, FindAlerts db faults criteria = .ok (pg, total) →
      (∀ a ∈ pg, a.ID ≠ d.id ∧ a.DeletedAtUnix = 0) ∧
      d.id ∉ distinctIds db criteria ∧
      total = ((distinctIds db criteria).length : Nat)) ∧
    (∀ now U S db2, now ≠ 0 → DeleteAlertBySlug db now none U S = (none, db2) →
      ∀ r ∈ db.alerts, deleteTarget U S r = true →
        (∀ fault a, FindAlertBySlug db2 fault S = .ok a → a.ID ≠ r.id) ∧
        (∀ faults criteria pg total, FindAlerts db2 faults criteria = .ok (pg, total) →
          (∀ a ∈ pg, a.ID ≠ r.id) ∧ r.id ∉ distinctIds db2 criteria)) := by
  obtain ⟨h1, h2⟩ := deleted_row_unseen db hids d hd hdel
  refine ⟨h1, FindAlertBySlug_notFound db d.slug, h2, ?_⟩
  intro now U S db2 hnow hdel2 r hr ht
  obtain ⟨-, d1, -⟩ := DeleteAlertBySlug_ok _ _ _ _ _ _ hdel2
  have hmapid : (db.alerts.map (fun r =>
      if deleteTarget U S r then markDeleted now now r else r)).map (fun r => r.id) =
      db.alerts.map (fun r => r.id) := by
    rw [List.map_map]
    apply List.map_congr_left
    intro r _
    simp only [Function.comp]
    split_ifs <;> rfl
  have hids2 : (db2.alerts.map (fun r => r.id)).Nodup := by
    rw [d1]; simp only [hmapid]; exact hids
  have hmem : markDeleted now now r ∈ db2.alerts := by
    rw [d1]
    simp only [List.mem_map]
    exact ⟨r, hr, by simp [ht]⟩
  have hslug : (markDeleted now now r).slug = S := by
    simp only [deleteTarget, Bool.and_eq_true, decide_eq_true_eq] at ht
    simpa [markDeleted] using ht.1.1
  obtain ⟨g1, g2⟩ := deleted_row_unseen db2 hids2 (markDeleted now now r) hmem
    (by simpa [markDeleted] using hnow)
  rw [hslug] at g1
  refine ⟨fun fault a h => (g1 fault a h).1, ?_⟩
  intro faults criteria pg total h
  obtain ⟨k1, k2, -⟩ := g2 faults criteria pg total h
  exact ⟨fun a ha => (k1 a ha).1, k2⟩

/-- C5 at the scenario, for the deleted `a6`, and for `a5` read right after its deletion. -/
theorem C5_witness :
    FindAlertBySlug scenarioDB none "a6" = .error .ErrNotFound ∧
    (∀ faults criteria pg total, FindAlerts scenarioDB faults criteria = .ok (pg, total) →
      (∀ a ∈ pg, a.ID ≠ 6 ∧ a.DeletedAtUnix = 0) ∧
      6 ∉ distinctIds scenarioDB criteria ∧
      total = ((distinctIds scenarioDB criteria).length : Nat)) ∧
    (∀ fault a, FindAlertBySlug (DeleteAlertBySlug scenarioDB 300 none 1 "a5").2 fault "a5" =
      .ok a → a.ID ≠ 5) :=
  ⟨(C5_deleted_never_read scenarioDB (by decide) (exampleRow 6 "a6" 200 1) (by decide)
      (by decide)).2.1 (by decide),
   (C5_deleted_never_read scenarioDB (by decide) (exampleRow 6 "a6" 200 1) (by decide)
      (by decide)).2.2.1,
   fun fault a h =>
     ((C5_deleted_never_read scenarioDB (by decide) (exampleRow 6 "a6" 200 1) (by decide)
        (by decide)).2.2.2 300 1 "a5" (DeleteAlertBySlug scenarioDB 300 none 1 "a5").2
        (by decide) (by decide) (exampleRow 5 "a5" 0 1) (by decide) (by decide)).1 fault a h⟩

/-- C6 fails at an offset of 2^63: `int(criteria.Offset)` wraps to a negative number, gorm
drops a negative offset, and `FindAlerts` answers with the first page `[a5, a4]` where
`M[Offset, Offset+Limit)` is empty.  At the offsets 0, 2 and 4 of the scenario the code
returns `[a5, a4]`, `[a3, a2]`, `[a1]`. -/
theorem C6_offset_wraps :
    toInt (2 ^ 63) = -(2 ^ 63) ∧
    page (scenarioDB.matching 1) (2 ^ 63) 2 = [] ∧
    (FindAlerts scenarioDB {} { Account := 1, Offset := 2 ^ 63, Limit := 2 }).toOption.map
      (fun p => p.1.map (fun a => a.Slug)) = some ["a5", "a4"] ∧
    (FindAlerts scenarioDB {} { Account := 1, Offset := 0, Limit := 2 }).toOption.map
      (fun p => p.1.map (fun a => a.Slug)) = some ["a5", "a4"] ∧
    (FindAlerts scenarioDB {} { Account := 1, Offset := 2, Limit := 2 }).toOption.map
      (fun p => p.1.map (fun a => a.Slug)) = some ["a3", "a2"] ∧
    (FindAlerts scenarioDB {} { Account := 1, Offset := 4, Limit := 2 }).toOption.map
      (fun p => p.1.map (fun a => a.Slug)) = some ["a1"] := by
  decide

/-- C7: in every store state that satisfies the schema and for every criteria, whenever
`FindAlerts` returns without error, the total it returns is the number of distinct active
alerts matching the account filter (the length of M); two calls with the same account filter
that return without error therefore return the same total, whatever their `Offset` and `Limit`,
also on a page that is empty because `Offset` is past the end.  A call whose count statement
fails does not return without error: the error stays in `chain` and the call ends with it.  A
call none of whose statements fails does return. -/
theorem C7_total_count (db : DB) (hwf : db.WF) :
    (∀ faults c pg total, FindAlerts db faults c = .ok (pg, total) →
      total = ((db.matching c.Account).length : Nat)) ∧
    (∀ faults1 faults2 c1 c2 pg1 pg2 total1 total2, c1.Account = c2.Account →
      FindAlerts db faults1 c1 = .ok (pg1, total1) →
      FindAlerts db faults2 c2 = .ok (pg2, total2) → total1 = total2) ∧
    (∀ faults c e, faults.count = some e → FindAlerts db faults c = .error e) ∧
    (∀ c, ∃ pg, FindAlerts db {} c = .ok (pg, ((db.matching c.Account).length : Nat))) ∧
    (∀ c, c.Offset < 2 ^ 63 → 0 < c.Limit → c.Limit < 2 ^ 63 →
      (db.matching c.Account).length ≤ c.Offset →
      FindAlerts db {} c = .ok ([], ((db.matching c.Account).length : Nat))) := by
  have h1 : ∀ faults c pg total, FindAlerts db faults c = .ok (pg, total) →
      total = ((db.matching c.Account).length : Nat) := by
    intro faults c pg total h
    obtain ⟨_, -, -, -, ht⟩ := FindAlerts_ok db faults c pg total h
    rw [ht, distinctIds_eq db hwf, List.length_map, matching_length db hwf]
  refine ⟨h1, ?_, ?_, ?_, ?_⟩
  · intro faults1 faults2 c1 c2 pg1 pg2 total1 total2 hacc k1 k2
    rw [h1 _ _ _ _ k1, h1 _ _ _ _ k2, hacc]
  · intro faults c e he
    simp [FindAlerts, gormCountDistinct, gormIdRows, he]
  · intro c
    exact ⟨_, FindAlerts_eq db hwf {} c rfl rfl (fun _ => rfl) rfl⟩
  · intro c ho hl0 hl hlen
    rw [FindAlerts_page db hwf {} c rfl rfl (fun _ => rfl) rfl ho hl0 hl]
    simp [page, List.drop_eq_nil_of_le hlen]

/-- C7 at the scenario: five active alerts match the first account; the pages at the offsets 0,
2, 4 and 10 (past the end, an empty page) all come with the total 5, and a call whose count
fails returns the error of the count. -/
theorem C7_witness :
    scenarioDB.WF ∧
    (scenarioDB.matching 1).length = 5 ∧
    (FindAlerts scenarioDB {} { Account := 1, Offset := 0, Limit := 2 }).toOption.map
      (fun p => (p.1.map (fun a => a.Slug), p.2)) = some (["a5", "a4"], 5) ∧
    (FindAlerts scenarioDB {} { Account := 1, Offset := 2, Limit := 2 }).toOption.map
      (fun p => (p.1.map (fun a => a.Slug), p.2)) = some (["a3", "a2"], 5) ∧
    (FindAlerts scenarioDB {} { Account := 1, Offset := 4, Limit := 2 }).toOption.map
      (fun p => (p.1.map (fun a => a.Slug), p.2)) = some (["a1"], 5) ∧
    FindAlerts scenarioDB {} { Account := 1, Offset := 10, Limit := 2 } =
      .ok ([], ((scenarioDB.matching 1).length : Nat)) ∧
    FindAlerts scenarioDB { count := some (.driver "driver: bad connection") }
      { Account := 1, Offset := 0, Limit := 2 } = .error (.driver "driver: bad connection") :=
  ⟨⟨by decide, by decide, by decide, by decide⟩, by decide, by decide, by decide, by decide,
   (C7_total_count scenarioDB ⟨by decide, by decide, by decide, by decide⟩).2.2.2.2
     { Account := 1, Offset := 10, Limit := 2 } (by decide) (by decide) (by decide) (by decide),
   (C7_total_count scenarioDB ⟨by decide, by decide, by decide, by decide⟩).2.2.1
     { count := some (.driver "driver: bad connection") }
     { Account := 1, Offset := 0, Limit := 2 } (.driver "driver: bad connection") rfl⟩

/-- C8: in a store state that satisfies the schema, if an active alert with slug S exists,
`FindAlertBySlug(S)` returns that alert, all columns as stored, with its owning account loaded;
`SaveAlert` of an active alert with slug S followed by `FindAlertBySlug(S)` returns the saved
alert with the slug, title, body and zero marker it was saved with and its owning account;
if no active alert has slug S, it returns no alert and exactly `database.ErrNotFound`. -/
theorem C8_FindAlertBySlug (db : DB) (hwf : db.WF) (S : String) :
    (∀ r ∈ db.alerts, r.slug = S → r.deleted_at_unix = 0 →
      FindAlertBySlug db none S = .ok (r.toAlert (db.ownerOf r)) ∧
      db.ownerOf r ∈ db.accounts ∧ (db.ownerOf r).ID = r.account_id) ∧
    (∀ now alert a db1, alert.Slug = S → alert.DeletedAtUnix = 0 →
      SaveAlert db now none alert = (none, a, db1) →
      ∃ found, FindAlertBySlug db1 none S = .ok found ∧
        found.ID = a.ID ∧ found.Slug = alert.Slug ∧ found.Title = alert.Title ∧
        found.Body = alert.Body ∧ found.DeletedAtUnix = 0 ∧
        found.Account ∈ db1.accounts ∧ found.Account.ID = a.AccountId) ∧
    ((∀ r ∈ db.alerts, r.slug = S → r.deleted_at_unix ≠ 0) →
      FindAlertBySlug db none S = .error .ErrNotFound) := by
  refine ⟨?_, ?_, FindAlertBySlug_notFound db S⟩
  · intro r hr hs h0
    subst hs
    exact ⟨FindAlertBySlug_active db hwf r hr h0, ownerOf_spec db hwf r hr⟩
  · intro now alert a db1 hs h0 hsave
    have hwf1 : db1.WF := by
      have := SaveAlert_WF db hwf now none alert
      rw [hsave] at this
      exact this
    obtain ⟨-, c1, c2, c3, c4, c5, -⟩ :=
      gormCreate_ok _ _ _ _ _ _ (SaveAlert_ok _ _ _ _ _ _ hsave)
    have hmem : a.toRow ∈ db1.alerts := by rw [c5]; simp
    have hact : a.toRow.deleted_at_unix = 0 := by simp [Alert.toRow, c4, h0]
    have hfind := FindAlertBySlug_active db1 hwf1 a.toRow hmem hact
    have hslug : a.toRow.slug = S := by simp [Alert.toRow, c1, hs]
    rw [hslug] at hfind
    obtain ⟨o1, o2⟩ := ownerOf_spec db1 hwf1 a.toRow hmem
    exact ⟨_, hfind, rfl, c1, c2, c3, by simp [AlertRow.toAlert, Alert.toRow, c4, h0], o1, o2⟩

/-- C8 at the scenario: `a5` is found with its account, the deleted `a6` is not found, and a
saved `a8` is found again. -/
theorem C8_witness :
    scenarioDB.WF ∧
    FindAlertBySlug scenarioDB none "a5" = .ok alert5 ∧
    FindAlertBySlug scenarioDB none "a6" = .error .ErrNotFound ∧
    (∃ found, FindAlertBySlug (SaveAlert scenarioDB 300 none (newAlert "a8" 2)).2.2 none "a8" =
        .ok found ∧
      found.ID = (SaveAlert scenarioDB 300 none (newAlert "a8" 2)).2.1.ID ∧
      found.Slug = "a8" ∧ found.Title = "a8" ∧ found.Body = "body" ∧
      found.DeletedAtUnix = 0 ∧
      found.Account ∈ (SaveAlert scenarioDB 300 none (newAlert "a8" 2)).2.2.accounts ∧
      found.Account.ID = (SaveAlert scenarioDB 300 none (newAlert "a8" 2)).2.1.AccountId) :=
  ⟨⟨by decide, by decide, by decide, by decide⟩,
   ((C8_FindAlertBySlug scenarioDB ⟨by decide, by decide, by decide, by decide⟩ "a5").1
      (exampleRow 5 "a5" 0 1) (by decide) (by decide) (by decide)).1,
   (C8_FindAlertBySlug scenarioDB ⟨by decide, by decide, by decide, by decide⟩ "a6").2.2
      (by decide),
   (C8_FindAlertBySlug scenarioDB ⟨by decide, by decide, by decide, by decide⟩ "a8").2.1
      300 (newAlert "a8" 2) (SaveAlert scenarioDB 300 none (newAlert "a8" 2)).2.1
      (SaveAlert scenarioDB 300 none (newAlert "a8" 2)).2.2 (by decide) (by decide)
      (by decide)⟩

/-- Closing a transaction that is not open changes nothing. -/
theorem closeTx_of_lookupTx_none (id : Nat) (txs : List (Nat × (DB → DB)))
    (h : lookupTx id txs = none) : closeTx id txs = txs := by
  induction txs with
  | nil => rfl
  | cons p rest ih =>
    obtain ⟨i, q⟩ := p
    unfold lookupTx at h
    split_ifs at h with hi
    simp only [closeTx, List.filter_cons, hi, decide_False, Bool.not_false, if_true]
    exact congrArg _ (ih h)

/-- A closed transaction is not open. -/
theorem lookupTx_closeTx (id : Nat) (txs : List (Nat × (DB → DB))) :
    lookupTx id (closeTx id txs) = none := by
  induction txs with
  | nil => rfl
  | cons p rest ih =>
    obtain ⟨i, q⟩ := p
    by_cases hi : i = id
    · simpa [closeTx, List.filter_cons, hi] using ih
    · simp only [closeTx, List.filter_cons, hi, decide_False, Bool.not_false, if_true, lookupTx,
        if_false]
      exact ih

/-- The world `Rollback` leaves, whatever its outcome: the transaction is not open any more and
nothing else has changed. -/
theorem Rollback_world (w : World) (fault : Option Err) (tx : Nat) :
    (Rollback w fault tx).2 = { w with txs := closeTx tx w.txs } := by
  unfold Rollback
  cases fault with
  | some e => rfl
  | none =>
    cases h : lookupTx tx w.txs with
    | none => simp [closeTx_of_lookupTx_none tx w.txs h]
    | some p => rfl

/-- C9, as stated, fails for a function that calls `RunInTx` itself before it fails: the inner
call begins and commits a transaction of its own, so the alert `a8` it saved is in the store
after the outer call has returned an error, and the store is not in the state from before the
call. -/
theorem C9_counterexample :
    (RunInTx { committed := scenarioDB } {} {}
      (thenFail (.driver "later failure") (nestedRunInTx {} saveA8))).1 =
      some (.wrap (.driver "later failure") "invoke function") ∧
    (RunInTx { committed := scenarioDB } {} {}
      (thenFail (.driver "later failure") (nestedRunInTx {} saveA8))).2.committed =
        (saveA8 scenarioDB).2 ∧
    (saveA8 scenarioDB).2 ≠ scenarioDB ∧
    (RunInTx { committed := scenarioDB } {} {}
      (thenFail (.driver "later failure") (nestedRunInTx {} saveA8))).2.committed.alerts.map
        (fun r => r.slug) = ["a1", "a2", "a3", "a4", "a5", "a6", "a7", "a8"] := by
  decide

/-- C9, amended: for every store state and every function fn run by `RunInTx` (`res` and `w2`
are what fn returns and the state it leaves): a failed `Begin` is returned wrapped and nothing
has happened.  If fn returns an error, `RunInTx` returns a non-nil error and its transaction is
rolled back: the transaction is closed, the effect of the writes made through its handle is
dropped, and everything else is as fn left it; the store state after the call equals the state
before it (the counter of begun transactions apart) when fn wrote only through the
transaction-bound handle, while what fn wrote outside the transaction stays.  If fn returns nil
and the commit succeeds (the transaction being still open), `RunInTx` returns nil and the writes
made through the handle are persisted: the committed tables are the tables seen through the
handle when fn returned.  `RunInTx` returns nil only in that last case. -/
theorem C9_RunInTx_rollback (w : World) (ctx : Ctx) (faults : TxFaults)
    (f : Ctx → World → Option Err × World) (res : Option Err) (w2 : World)
    (hf : f (WithDB ctx w.begun)
      { w with txs := (w.begun, fun d => d) :: w.txs, begun := w.begun + 1 } = (res, w2)) :
    (∀ e, faults.begin = some e → RunInTx w ctx faults f = (some (.wrap e "start tx"), w)) ∧
    (∀ e, faults.begin = none → res = some e →
      (RunInTx w ctx faults f).1 ≠ none ∧
      (RunInTx w ctx faults f).2 = { w2 with txs := closeTx w.begun w2.txs } ∧
      (RunInTx w ctx faults f).2.get (.tx w.begun) = none ∧
      (∀ pending, (∀ q ∈ w.txs, q.1 ≠ w.begun) →
        w2 = { w with txs := (w.begun, pending) :: w.txs, begun := w.begun + 1 } →
        (RunInTx w ctx faults f).2 = { w with begun := w.begun + 1 })) ∧
    (∀ pending, faults.begin = none → res = none → faults.commit = none →
      lookupTx w.begun w2.txs = some pending →
      (RunInTx w ctx faults f).1 = none ∧
      (RunInTx w ctx faults f).2 =
        { w2 with committed := pending w2.committed, txs := closeTx w.begun w2.txs } ∧
      some (RunInTx w ctx faults f).2.committed = w2.get (.tx w.begun) ∧
      (RunInTx w ctx faults f).2.get (.tx w.begun) = none ∧
      ((∀ q ∈ w.txs, q.1 ≠ w.begun) →
        w2 = { w with txs := (w.begun, pending) :: w.txs, begun := w.begun + 1 } →
        (RunInTx w ctx faults f).2 =
          { w with committed := pending w.committed, begun := w.begun + 1 })) ∧
    ((RunInTx w ctx faults f).1 = none ↔
      (faults.begin = none ∧ res = none ∧ faults.commit = none ∧
        w2.get (.tx w.begun) ≠ none)) := by
  refine ⟨?_, ?_, ?_, ?_⟩
  · intro e hb
    simp only [RunInTx, Begin, hb]
  · intro e hb hres
    subst hres
    have hw : (RunInTx w ctx faults f).2 = { w2 with txs := closeTx w.begun w2.txs } := by
      simp only [RunInTx, Begin, hb, hf]
      rw [← Rollback_world w2 faults.rollback w.begun]
      rcases Rollback w2 faults.rollback w.begun with ⟨_ | r, w3⟩ <;> rfl
    refine ⟨?_, hw, ?_, ?_⟩
    · simp only [RunInTx, Begin, hb, hf]
      rcases Rollback w2 faults.rollback w.begun with ⟨_ | r, w3⟩ <;> simp
    · rw [hw]
      simp [World.get, lookupTx_closeTx]
    · intro pending hfresh hshape
      rw [hw, hshape]
      simp [closeTx, List.filter_cons]
      exact fun a b h => hfresh (a, b) h
  · intro pending hb hres hc hopen
    subst hres
    have hrun : RunInTx w ctx faults f =
        (none, { w2 with committed := pending w2.committed, txs := closeTx w.begun w2.txs }) := by
      simp only [RunInTx, Begin, hb, hf, Commit, hc, hopen]
    refine ⟨by rw [hrun], by rw [hrun], ?_, ?_, ?_⟩
    · rw [hrun]; simp [World.get, hopen]
    · rw [hrun]; simp [World.get, lookupTx_closeTx]
    · intro hfresh hshape
      rw [hrun]
      subst hshape
      simp [closeTx, List.filter_cons]
      exact fun a b h => hfresh (a, b) h
  · cases hb : faults.begin with
    | some e => simp [RunInTx, Begin, hb]
    | none =>
      cases res with
      | some e =>
        simp only [RunInTx, Begin, hb, hf]
        rcases Rollback w2 faults.rollback w.begun with ⟨_ | r, w3⟩ <;> simp
      | none =>
        cases hc : faults.commit with
        | some e => simp [RunInTx, Begin, hb, hf, Commit, hc]
        | none =>
          cases hopen : lookupTx w.begun w2.txs with
          | none => simp [RunInTx, Begin, hb, hf, Commit, hc, hopen, World.get]
          | some p => simp [RunInTx, Begin, hb, hf, Commit, hc, hopen, World.get]

/-- C9 (amended) at the scenario: the body of the handler's `deleteAlert` fails on an already
deleted `a5` and the store is as before; on an active `a5` it succeeds and the delete is
committed; a function that saves `a8` in a nested `RunInTx` and then fails leaves `a8`
committed and no transaction open. -/
theorem C9_witness :
    ((RunInTx { committed := (deleteA5 scenarioDB).2 } {} {} (throughHandle deleteA5)).1 ≠ none ∧
     (RunInTx { committed := (deleteA5 scenarioDB).2 } {} {} (throughHandle deleteA5)).2 =
       { committed := (deleteA5 scenarioDB).2, txs := [], begun := 1 }) ∧
    ((RunInTx { committed := scenarioDB } {} {} (throughHandle deleteA5)).1 = none ∧
     (RunInTx { committed := scenarioDB } {} {} (throughHandle deleteA5)).2 =
       { committed := (deleteA5 scenarioDB).2, txs := [], begun := 1 }) ∧
    ((RunInTx { committed := scenarioDB } {} {}
        (thenFail (.driver "later failure") (nestedRunInTx {} saveA8))).1 ≠ none ∧
     (RunInTx { committed := scenarioDB } {} {}
        (thenFail (.driver "later failure") (nestedRunInTx {} saveA8))).2 =
       { committed := (saveA8 scenarioDB).2, txs := [], begun := 2 }) :=
  ⟨⟨((C9_RunInTx_rollback { committed := (deleteA5 scenarioDB).2 } {} {} (throughHandle deleteA5)
        (some .ErrNotFound)
        { committed := (deleteA5 scenarioDB).2, txs := [(0, fun d => (deleteA5 d).2)], begun := 1 }
        (Prod.ext (by decide) rfl)).2.1 .ErrNotFound rfl rfl).1,
     ((C9_RunInTx_rollback { committed := (deleteA5 scenarioDB).2 } {} {} (throughHandle deleteA5)
        (some .ErrNotFound)
        { committed := (deleteA5 scenarioDB).2, txs := [(0, fun d => (deleteA5 d).2)], begun := 1 }
        (Prod.ext (by decide) rfl)).2.1 .ErrNotFound rfl rfl).2.2.2
        (fun d => (deleteA5 d).2) (fun _ h => nomatch h) rfl⟩,
   ⟨((C9_RunInTx_rollback { committed := scenarioDB } {} {} (throughHandle deleteA5) none
        { committed := scenarioDB, txs := [(0, fun d => (deleteA5 d).2)], begun := 1 }
        (Prod.ext (by decide) rfl)).2.2.1 (fun d => (deleteA5 d).2) rfl rfl rfl rfl).1,
     ((C9_RunInTx_rollback { committed := scenarioDB } {} {} (throughHandle deleteA5) none
        { committed := scenarioDB, txs := [(0, fun d => (deleteA5 d).2)], begun := 1 }
        (Prod.ext (by decide) rfl)).2.2.1 (fun d => (deleteA5 d).2) rfl rfl rfl rfl).2.2.2.2
        (fun _ h => nomatch h) rfl⟩,
   ⟨((C9_RunInTx_rollback { committed := scenarioDB } {} {}
        (thenFail (.driver "later failure") (nestedRunInTx {} saveA8))
        (some (.driver "later failure"))
        { committed := (saveA8 scenarioDB).2, txs := [(0, fun d => d)], begun := 2 }
        (Prod.ext (by decide) rfl)).2.1 (.driver "later failure") rfl rfl).1,
     ((C9_RunInTx_rollback { committed := scenarioDB } {} {}
        (thenFail (.driver "later failure") (nestedRunInTx {} saveA8))
        (some (.driver "later failure"))
        { committed := (saveA8 scenarioDB).2, txs := [(0, fun d => d)], begun := 2 }
        (Prod.ext (by decide) rfl)).2.1 (.driver "later failure") rfl rfl).2.1⟩⟩

/-- C10: in one pass over a store that satisfies the schema, for every alert of the batch whose
bundle fetch and token fetch both deliver a price and whose predicate (any predicate) holds of
the computed value (the product of the two parsed prices), `sendMessage` is started exactly
once, with the title and body of that alert and the token of its owning account. -/
theorem C10_dispatch_once (db : DB) (hwf : db.WF) (faults : FindFaults) (oracle : Oracle)
    (fcm : Notification → FcmOutcome) (batch : List Alert) (total : Int)
    (hbatch : FindAlertsWithoutContext db faults { Account := 1, Offset := 0, Limit := 1 } =
      .ok (batch, total))
    (ethPrice : String) (bundles : List String)
    (hglobal : oracle.bundles = .body (ethPrice :: bundles))
    (i : Nat) (a : Alert) (hi : batch[i]? = some a)
    (derivedETH : String) (tokens : List String)
    (hfetch : oracle.token i a.PairAddress = .body (derivedETH :: tokens))
    (F : Type) (parseFloat : String → F) (mul : F → F → F) (holds : Alert → F → Prop)
    (_htrig : holds a (mul (parseFloat ethPrice) (parseFloat derivedETH))) :
    (cronPass db faults oracle fcm).sent =
      [{ title := a.Title, body := a.Body, token := a.Account.Token }] ∧
    (cronPass db faults oracle fcm).sent.count
      { title := a.Title, body := a.Body, token := a.Account.Token } = 1 := by
  have hlen : batch.length ≤ 1 := by
    have := FindAlerts_length_le db hwf faults _ batch total hbatch (by decide)
    simpa [toInt] using this
  have hb : batch = [a] ∧ i = 0 := by
    match batch, hlen, hi with
    | [], _, hi => simp at hi
    | [x], _, hi =>
      cases i with
      | zero => simp at hi; exact ⟨by rw [hi], rfl⟩
      | succ n => simp at hi
    | _ :: _ :: _, hlen, _ => simp at hlen
  obtain ⟨hb1, hb2⟩ := hb
  subst hb2
  have hs : (cronPass db faults oracle fcm).sent =
      [{ title := a.Title, body := a.Body, token := a.Account.Token }] := by
    unfold cronPass
    simp only [hbatch, hglobal, hb1, Request]
    rw [tokenLoop_single oracle fcm a _ derivedETH tokens hfetch]
    rfl
  exact ⟨hs, by rw [hs]; simp⟩

/-- C10 at the scenario: the bundle price is 2000.0, the derived price of `a5` is 0.001, the
predicate is "computed value >= 1.5" and the computed value is 2: one `sendMessage` call. -/
theorem C10_witness :
    (parseDecimal "2000.0" * parseDecimal "0.001" = 2 ∧
      parseDecimal "2000.0" * parseDecimal "0.001" ≥ 3 / 2) ∧
    (cronPass scenarioDB {} exampleOracle (fun _ => .sent)).sent =
      [{ title := "a5", body := "body", token := "token-1" }] ∧
    (cronPass scenarioDB {} exampleOracle (fun _ => .sent)).sent.count
      { title := "a5", body := "body", token := "token-1" } = 1 :=
  ⟨⟨by simp [parseDecimal, digitsValue, List.takeWhile, List.dropWhile]; norm_num,
    by simp [parseDecimal, digitsValue, List.takeWhile, List.dropWhile]; norm_num⟩,
   C10_dispatch_once scenarioDB ⟨by decide, by decide, by decide, by decide⟩ {} exampleOracle
     (fun _ => .sent) [alert5] 5 rfl "2000.0" [] rfl 0 alert5 rfl "0.001" [] rfl
     ℚ parseDecimal (fun x y => x * y) (fun _ v => v ≥ 3 / 2)
     (by simp [parseDecimal, digitsValue, List.takeWhile, List.dropWhile]; norm_num)⟩


/-! ## The evaluation pass, nested transactions, the listing variants, the scheduler and
`NewDatabase` -/

/-- The notification `sendMessage` is started with for an alert. -/
theorem cronPass_sent_single (db : DB) (hwf : db.WF) (faults : FindFaults) (oracle : Oracle)
    (fcm : Notification → FcmOutcome) (batch : List Alert) (total : Int)
    (hbatch : FindAlertsWithoutContext db faults { Account := 1, Offset := 0, Limit := 1 } =
      .ok (batch, total))
    (ethPrice : String) (bundles : List String)
    (hglobal : oracle.bundles = .body (ethPrice :: bundles))
    (i : Nat) (a : Alert) (hi : batch[i]? = some a)
    (derivedETH : String) (tokens : List String)
    (hfetch : oracle.token i a.PairAddress = .body (derivedETH :: tokens)) :
    (cronPass db faults oracle fcm).sent =
      [{ title := a.Title, body := a.Body, token := a.Account.Token }] := by
  have hlen : batch.length ≤ 1 := by
    have := FindAlerts_length_le db hwf faults _ batch total hbatch (by decide)
    simpa [toInt] using this
  have hb : batch = [a] ∧ i = 0 := by
    match batch, hlen, hi with
    | [], _, hi => simp at hi
    | [x], _, hi =>
      cases i with
      | zero => simp at hi; exact ⟨by rw [hi], rfl⟩
      | succ n => simp at hi
    | _ :: _ :: _, hlen, _ => simp at hlen
  obtain ⟨hb1, hb2⟩ := hb
  subst hb2
  unfold cronPass
  simp only [hbatch, hglobal, hb1, Request]
  rw [tokenLoop_single oracle fcm a _ derivedETH tokens hfetch]
  rfl

/-- The loop does not look at the prices: two oracles that both deliver a price for every token
query lead to the same `sendMessage` calls and the same end. -/
theorem tokenLoop_prices_irrelevant (o1 o2 : Oracle) (fcm : Notification → FcmOutcome)
    (h1 : ∀ i addr, ∃ p ps, o1.token i addr = .body (p :: ps))
    (h2 : ∀ i addr, ∃ p ps, o2.token i addr = .body (p :: ps))
    (batch : List Alert) (i : Nat) (acc1 acc2 : PassResult)
    (hs : acc1.sent = acc2.sent) (hst : acc1.status = acc2.status) :
    (tokenLoop o1 fcm i batch acc1).sent = (tokenLoop o2 fcm i batch acc2).sent ∧
    (tokenLoop o1 fcm i batch acc1).status = (tokenLoop o2 fcm i batch acc2).status := by
  induction batch generalizing i acc1 acc2 with
  | nil => exact ⟨hs, hst⟩
  | cons a rest ih =>
    obtain ⟨p1, ps1, e1⟩ := h1 i a.PairAddress
    obtain ⟨p2, ps2, e2⟩ := h2 i a.PairAddress
    simp only [tokenLoop, e1, e2, Request]
    exact ih (i + 1) _ _ (by simp [hs]) (by simp [hst])

/-- C11, as stated, fails: the bundle price is 2000.0 and the derived price of `a5` is 0.0001,
so the computed value 0.2 does not satisfy the predicate of `a5` ("computed value >= 1.5"), and
`sendMessage` is started for `a5` all the same. -/
theorem C11_counterexample :
    parseDecimal "2000.0" * parseDecimal "0.0001" = 1 / 5 ∧
    ¬ (parseDecimal "2000.0" * parseDecimal "0.0001" ≥ 3 / 2) ∧
    (cronPass scenarioDB {} lowOracle (fun _ => .sent)).sent =
      [{ title := "a5", body := "body", token := "token-1" }] := by
  refine ⟨?_, ?_, by decide⟩
  · simp [parseDecimal, digitsValue, List.takeWhile, List.dropWhile]; norm_num
  · simp [parseDecimal, digitsValue, List.takeWhile, List.dropWhile]; norm_num

/-- C11, amended: in one pass no predicate is evaluated.  An alert of the batch whose fetches
deliver a price is dispatched also when its predicate does not hold of its computed value; the
calls are the same for any other prices the oracle may deliver, so the decision for an alert
depends neither on its own derived price nor on the derived price fetched for another alert
(for a batch of any length). -/
theorem C11_dispatch_ignores_predicate (db : DB) (hwf : db.WF) (faults : FindFaults)
    (oracle : Oracle) (fcm : Notification → FcmOutcome) (batch : List Alert) (total : Int)
    (hbatch : FindAlertsWithoutContext db faults { Account := 1, Offset := 0, Limit := 1 } =
      .ok (batch, total))
    (ethPrice : String) (bundles : List String)
    (hglobal : oracle.bundles = .body (ethPrice :: bundles))
    (i : Nat) (a : Alert) (hi : batch[i]? = some a)
    (derivedETH : String) (tokens : List String)
    (hfetch : oracle.token i a.PairAddress = .body (derivedETH :: tokens))
    (F : Type) (parseFloat : String → F) (mul : F → F → F) (holds : Alert → F → Prop)
    (_hnot : ¬ holds a (mul (parseFloat ethPrice) (parseFloat derivedETH))) :
    (cronPass db faults oracle fcm).sent =
      [{ title := a.Title, body := a.Body, token := a.Account.Token }] ∧
    (∀ oracle2 : Oracle, (∃ p ps, oracle2.bundles = .body (p :: ps)) →
      (∃ p ps, oracle2.token i a.PairAddress = .body (p :: ps)) →
      (cronPass db faults oracle2 fcm).sent = (cronPass db faults oracle fcm).sent) ∧
    (∀ (o1 o2 : Oracle) (alerts : List Alert) (acc : PassResult),
      (∀ j addr, ∃ p ps, o1.token j addr = .body (p :: ps)) →
      (∀ j addr, ∃ p ps, o2.token j addr = .body (p :: ps)) →
      (tokenLoop o1 fcm 0 alerts acc).sent = (tokenLoop o2 fcm 0 alerts acc).sent) := by
  have h1 := cronPass_sent_single db hwf faults oracle fcm batch total hbatch ethPrice bundles
    hglobal i a hi derivedETH tokens hfetch
  refine ⟨h1, ?_, ?_⟩
  · rintro oracle2 ⟨p, ps, hp⟩ ⟨q, qs, hq⟩
    rw [h1]
    exact cronPass_sent_single db hwf faults oracle2 fcm batch total hbatch p ps hp i a hi q qs hq
  · intro o1 o2 alerts acc k1 k2
    exact (tokenLoop_prices_irrelevant o1 o2 fcm k1 k2 alerts 0 acc acc rfl rfl).1

/-- C11 (amended) at the scenario with the computed value 0.2. -/
theorem C11_witness :
    ¬ (parseDecimal "2000.0" * parseDecimal "0.0001" ≥ 3 / 2) ∧
    (cronPass scenarioDB {} lowOracle (fun _ => .sent)).sent =
      [{ title := alert5.Title, body := alert5.Body, token := alert5.Account.Token }] ∧
    (cronPass scenarioDB {} exampleOracle (fun _ => .sent)).sent =
      (cronPass scenarioDB {} lowOracle (fun _ => .sent)).sent :=
  ⟨by simp [parseDecimal, digitsValue, List.takeWhile, List.dropWhile]; norm_num,
   (C11_dispatch_ignores_predicate scenarioDB ⟨by decide, by decide, by decide, by decide⟩ {}
     lowOracle (fun _ => .sent) [alert5] 5 rfl "2000.0" [] rfl 0 alert5 rfl "0.0001" [] rfl
     ℚ parseDecimal (fun x y => x * y) (fun _ v => v ≥ 3 / 2)
     (by simp [parseDecimal, digitsValue, List.takeWhile, List.dropWhile]; norm_num)).1,
   (C11_dispatch_ignores_predicate scenarioDB ⟨by decide, by decide, by decide, by decide⟩ {}
     lowOracle (fun _ => .sent) [alert5] 5 rfl "2000.0" [] rfl 0 alert5 rfl "0.0001" [] rfl
     ℚ parseDecimal (fun x y => x * y) (fun _ v => v ≥ 3 / 2)
     (by simp [parseDecimal, digitsValue, List.takeWhile, List.dropWhile]; norm_num)).2.1
     exampleOracle ⟨"2000.0", [], rfl⟩ ⟨"0.001", [], rfl⟩⟩

/-- C12 fails when the exchange of the token query fails: `Request` prints the error, nothing
reaches the channel, and `defer response.Body.Close()` dereferences the nil response, so the
pass ends in a panic instead of completing.  In a loop over two alerts the second one, whose
fetch would succeed, is never evaluated. -/
theorem C12_failed_fetch_panics :
    (cronPass scenarioDB {} failingOracle (fun _ => .sent)).status = .panicked ∧
    (cronPass scenarioDB {} failingOracle (fun _ => .sent)).sent = [] ∧
    (cronPass scenarioDB {} failingOracle (fun _ => .sent)).requests =
      [QueryBundles, QueryToken "0xpair"] ∧
    (tokenLoop { bundles := .body ["2000.0"],
                 token := fun i _ => if i = 0 then .failed else .body ["0.001"] }
        (fun _ => .sent) 0 [alert5, alert4] {}).sent = [] ∧
    (tokenLoop { bundles := .body ["2000.0"], token := fun _ _ => .body ["0.001"] }
        (fun _ => .sent) 0 [alert5, alert4] {}).sent =
      [{ title := "a5", body := "body", token := "token-1" },
       { title := "a4", body := "body", token := "token-1" }] := by
  decide

/-- A send that fails is among those that end the process. -/
theorem tokenLoop_fatal (oracle : Oracle) (fcm : Notification → FcmOutcome)
    (batch : List Alert) (i : Nat) (acc : PassResult)
    (hacc : ∀ m ∈ acc.sent, fcm m ≠ .sent → m ∈ acc.fatal) (n : Notification)
    (hn : n ∈ (tokenLoop oracle fcm i batch acc).sent) (hfail : fcm n ≠ .sent) :
    n ∈ (tokenLoop oracle fcm i batch acc).fatal := by
  induction batch generalizing i acc with
  | nil => exact hacc n hn hfail
  | cons a rest ih =>
    rcases hreq : Request (oracle.token i a.PairAddress) with _ | ⟨_ | ⟨d, ds⟩⟩
    · simp only [tokenLoop, hreq] at hn ⊢
      exact hacc n hn hfail
    · simp only [tokenLoop, hreq] at hn ⊢
      exact hacc n hn hfail
    · simp only [tokenLoop, hreq] at hn ⊢
      refine ih (i + 1) _ ?_ hn
      intro m hm hmf
      simp only [List.mem_append, List.mem_singleton] at hm
      rcases hm with hm | hm
      · have := hacc m hm hmf
        split_ifs
        · exact this
        · exact List.mem_append_left _ this
      · subst hm
        have hs : sendMessage fcm a.Title a.Body a.Account.Token = false := by
          unfold sendMessage
          split <;> simp_all
        simp [hs]

/-- The loop does not wait for the sends: its steps are the same whatever the sends do. -/
theorem tokenLoop_sends_irrelevant (oracle : Oracle) (fcm1 fcm2 : Notification → FcmOutcome)
    (batch : List Alert) (i : Nat) (acc1 acc2 : PassResult)
    (hr : acc1.requests = acc2.requests) (hs : acc1.sent = acc2.sent)
    (hst : acc1.status = acc2.status) :
    (tokenLoop oracle fcm1 i batch acc1).requests = (tokenLoop oracle fcm2 i batch acc2).requests ∧
    (tokenLoop oracle fcm1 i batch acc1).sent = (tokenLoop oracle fcm2 i batch acc2).sent ∧
    (tokenLoop oracle fcm1 i batch acc1).status = (tokenLoop oracle fcm2 i batch acc2).status := by
  induction batch generalizing i acc1 acc2 with
  | nil => exact ⟨hr, hs, hst⟩
  | cons a rest ih =>
    rcases hreq : Request (oracle.token i a.PairAddress) with _ | ⟨_ | ⟨d, ds⟩⟩
    · simp only [tokenLoop, hreq]
      exact ⟨by rw [hr], hs, trivial⟩
    · simp only [tokenLoop, hreq]
      exact ⟨by rw [hr], hs, trivial⟩
    · simp only [tokenLoop, hreq]
      exact ih (i + 1) _ _ (by simp [hr]) (by simp [hs]) (by simp [hst])

theorem tokenLoop_sent_length (oracle : Oracle) (fcm : Notification → FcmOutcome)
    (batch : List Alert) (i : Nat) (acc : PassResult) :
    (tokenLoop oracle fcm i batch acc).sent.length ≤ acc.sent.length + batch.length := by
  induction batch generalizing i acc with
  | nil => simp [tokenLoop]
  | cons a rest ih =>
    rcases hreq : Request (oracle.token i a.PairAddress) with _ | ⟨_ | ⟨d, ds⟩⟩
    · simp only [tokenLoop, hreq, List.length_cons]; omega
    · simp only [tokenLoop, hreq, List.length_cons]; omega
    · simp only [tokenLoop, hreq]
      refine le_trans (ih (i + 1) _) ?_
      simp only [List.length_append, List.length_singleton, List.length_cons,
        List.length_nil]
      omega

/-- One pass starts at most one `sendMessage`: the batch is read with `Limit: 1`. -/
theorem cronPass_sent_length (db : DB) (hwf : db.WF) (faults : FindFaults) (oracle : Oracle)
    (fcm : Notification → FcmOutcome) : (cronPass db faults oracle fcm).sent.length ≤ 1 := by
  unfold cronPass
  split
  · simp
  · rename_i alerts total hbatch
    have hlen : alerts.length ≤ 1 := by
      have := FindAlerts_length_le db hwf faults _ alerts total hbatch (by decide)
      simpa [toInt] using this
    split
    · simp
    · simp
    · have := tokenLoop_sent_length oracle fcm alerts 0
        { requests := [QueryBundles], ethPrice := ‹String› }
      simp only [List.length_nil, Nat.zero_add] at this
      exact le_trans this hlen

/-- C13, as stated, fails: when `client.Send` (or `fcm.NewClient`) fails for the one alert of the
scenario, the failure is not only logged: `sendMessage` ends the process with `log.Fatalln`, so
the scheduler does not keep running.  With a send that succeeds the process runs on. -/
theorem C13_counterexample :
    sendMessage (fun _ => .sendError) "a5" "body" "token-1" = false ∧
    (cronPass scenarioDB {} exampleOracle (fun _ => .sendError)).fatal =
      [{ title := "a5", body := "body", token := "token-1" }] ∧
    (cronPass scenarioDB {} exampleOracle (fun _ => .sendError)).processRuns = false ∧
    (cronPass scenarioDB {} exampleOracle (fun _ => .clientError)).processRuns = false ∧
    (cronPass scenarioDB {} exampleOracle (fun _ => .sent)).processRuns = true := by
  decide

/-- C13, amended: for every batch and every alert whose notification send fails (client
creation or `Send` returns an error), the failure is logged with `log.Fatalln` in the goroutine
of that send, which ends the process, so the scheduler does not keep running.  The pass does
not wait for the send: for as long as the process runs it goes on as it does when every send
succeeds (the same requests, the same sends started, the same end), and in a loop over a batch
of any length the sends of the other alerts are still started. -/
theorem C13_failed_send_exits (db : DB) (faults : FindFaults) (oracle : Oracle)
    (fcm : Notification → FcmOutcome) (n : Notification)
    (hn : n ∈ (cronPass db faults oracle fcm).sent) (hfail : fcm n ≠ .sent) :
    sendMessage fcm n.title n.body n.token = false ∧
    n ∈ (cronPass db faults oracle fcm).fatal ∧
    (cronPass db faults oracle fcm).processRuns = false ∧
    (cronPass db faults oracle fcm).requests =
      (cronPass db faults oracle (fun _ => .sent)).requests ∧
    (cronPass db faults oracle fcm).sent = (cronPass db faults oracle (fun _ => .sent)).sent ∧
    (cronPass db faults oracle fcm).status =
      (cronPass db faults oracle (fun _ => .sent)).status ∧
    (∀ (alerts : List Alert) (acc : PassResult),
      (tokenLoop oracle fcm 0 alerts acc).requests =
        (tokenLoop oracle (fun _ => .sent) 0 alerts acc).requests ∧
      (tokenLoop oracle fcm 0 alerts acc).sent =
        (tokenLoop oracle (fun _ => .sent) 0 alerts acc).sent ∧
      (tokenLoop oracle fcm 0 alerts acc).status =
        (tokenLoop oracle (fun _ => .sent) 0 alerts acc).status) := by
  have hsend : sendMessage fcm n.title n.body n.token = false := by
    unfold sendMessage
    split <;> simp_all
  have hfatal : n ∈ (cronPass db faults oracle fcm).fatal := by
    unfold cronPass at hn ⊢
    rcases hb : FindAlertsWithoutContext db faults { Account := 1, Offset := 0, Limit := 1 }
      with e | ⟨alerts, total⟩
    · simp only [hb] at hn
      cases hn
    · simp only [hb] at hn ⊢
      rcases hreq : Request oracle.bundles with _ | ⟨_ | ⟨d, ds⟩⟩
      · simp only [hreq] at hn
        cases hn
      · simp only [hreq] at hn
        cases hn
      · simp only [hreq] at hn ⊢
        exact tokenLoop_fatal oracle fcm alerts 0 _ (by intro m hm; cases hm) n hn hfail
  have hpass : (cronPass db faults oracle fcm).requests =
        (cronPass db faults oracle (fun _ => .sent)).requests ∧
      (cronPass db faults oracle fcm).sent = (cronPass db faults oracle (fun _ => .sent)).sent ∧
      (cronPass db faults oracle fcm).status =
        (cronPass db faults oracle (fun _ => .sent)).status := by
    unfold cronPass
    rcases hb : FindAlertsWithoutContext db faults { Account := 1, Offset := 0, Limit := 1 }
      with e | ⟨alerts, total⟩
    · exact ⟨rfl, rfl, rfl⟩
    · rcases hreq : Request oracle.bundles with _ | ⟨_ | ⟨d, ds⟩⟩
      · exact ⟨rfl, rfl, rfl⟩
      · exact ⟨rfl, rfl, rfl⟩
      · exact tokenLoop_sends_irrelevant oracle fcm (fun _ => .sent) alerts 0 _ _ rfl rfl rfl
  refine ⟨hsend, hfatal, ?_, hpass.1, hpass.2.1, hpass.2.2, ?_⟩
  · unfold PassResult.processRuns
    have : (cronPass db faults oracle fcm).fatal ≠ [] := List.ne_nil_of_mem hfatal
    cases hf : (cronPass db faults oracle fcm).fatal with
    | nil => exact absurd hf this
    | cons x xs => simp
  · intro alerts acc
    exact tokenLoop_sends_irrelevant oracle fcm (fun _ => .sent) alerts 0 acc acc rfl rfl rfl

/-- C13 (amended) at the scenario: `client.Send` fails for `a5`; and in a loop over `a5` and
`a4` where the send for `a5` fails, the send for `a4` is still started. -/
theorem C13_witness :
    (sendMessage (fun _ => .sendError) "a5" "body" "token-1" = false ∧
      (cronPass scenarioDB {} exampleOracle (fun _ => .sendError)).processRuns = false ∧
      (cronPass scenarioDB {} exampleOracle (fun _ => .sendError)).status =
        (cronPass scenarioDB {} exampleOracle (fun _ => .sent)).status) ∧
    (cronPass scenarioDB {} exampleOracle (fun _ => .sendError)).status = .returned ∧
    (tokenLoop exampleOracle (fun m => if m.title = "a5" then .sendError else .sent) 0
        [alert5, alert4] {}).sent =
      [{ title := "a5", body := "body", token := "token-1" },
       { title := "a4", body := "body", token := "token-1" }] ∧
    (tokenLoop exampleOracle (fun m => if m.title = "a5" then .sendError else .sent) 0
        [alert5, alert4] {}).fatal = [{ title := "a5", body := "body", token := "token-1" }] :=
  ⟨⟨(C13_failed_send_exits scenarioDB {} exampleOracle (fun _ => .sendError)
        { title := "a5", body := "body", token := "token-1" } (by decide) (by decide)).1,
     (C13_failed_send_exits scenarioDB {} exampleOracle (fun _ => .sendError)
        { title := "a5", body := "body", token := "token-1" } (by decide) (by decide)).2.2.1,
     (C13_failed_send_exits scenarioDB {} exampleOracle (fun _ => .sendError)
        { title := "a5", body := "body", token := "token-1" } (by decide)
        (by decide)).2.2.2.2.2.1⟩,
   by decide, by decide, by decide⟩

/-- C14, as stated, fails: the first account has no alert, the batch is empty, and the pass
still sends the global price query to the oracle. -/
theorem C14_counterexample :
    (FindAlertsWithoutContext emptyBatchDB {} { Account := 1, Offset := 0, Limit := 1 }).toOption =
      some ([], 0) ∧
    (cronPass emptyBatchDB {} exampleOracle (fun _ => .sent)).requests = [QueryBundles] ∧
    (cronPass emptyBatchDB {} exampleOracle (fun _ => .sent)).requests ≠ [] := by
  decide

/-- C14, amended: when the batch selected from the store is empty, the pass performs exactly
one oracle request, the global price query, and no per-token query, and dispatches no
notification; when the query delivers a price the pass returns.  (The pass only reads the
store: it has no tables to hand back.) -/
theorem C14_empty_batch (db : DB) (faults : FindFaults) (oracle : Oracle)
    (fcm : Notification → FcmOutcome) (total : Int)
    (hbatch : FindAlertsWithoutContext db faults { Account := 1, Offset := 0, Limit := 1 } =
      .ok ([], total)) :
    (cronPass db faults oracle fcm).requests = [QueryBundles] ∧
    (cronPass db faults oracle fcm).sent = [] ∧
    (∀ p ps, oracle.bundles = .body (p :: ps) →
      (cronPass db faults oracle fcm).status = .returned) := by
  unfold cronPass
  simp only [hbatch]
  rcases hreq : Request oracle.bundles with _ | ⟨_ | ⟨d, ds⟩⟩
  · refine ⟨rfl, rfl, ?_⟩
    intro p ps hp
    simp [Request, hp] at hreq
  · refine ⟨rfl, rfl, ?_⟩
    intro p ps hp
    simp [Request, hp] at hreq
  · exact ⟨rfl, rfl, fun _ _ _ => rfl⟩

/-- C14 (amended) at a store where the first account has no alert. -/
theorem C14_witness :
    (cronPass emptyBatchDB {} exampleOracle (fun _ => .sent)).requests = [QueryBundles] ∧
    (cronPass emptyBatchDB {} exampleOracle (fun _ => .sent)).sent = [] ∧
    (cronPass emptyBatchDB {} exampleOracle (fun _ => .sent)).status = .returned :=
  ⟨(C14_empty_batch emptyBatchDB {} exampleOracle (fun _ => .sent) 0 rfl).1,
   (C14_empty_batch emptyBatchDB {} exampleOracle (fun _ => .sent) 0 rfl).2.1,
   (C14_empty_batch emptyBatchDB {} exampleOracle (fun _ => .sent) 0 rfl).2.2 "2000.0" [] rfl⟩

/-- C19 fails for a delivered body whose list is empty: for an unknown pair address the answer
has no token, `tokens.Data.Tokens[0]` indexes out of range and the pass ends in a panic; the
same happens at `bundles.Data.Bundles[0]` for a body without bundles (or one that is not
valid JSON). -/
theorem C19_empty_list_panics :
    (cronPass scenarioDB {} unknownPairOracle (fun _ => .sent)).status = .panicked ∧
    (cronPass scenarioDB {} unknownPairOracle (fun _ => .sent)).sent = [] ∧
    (cronPass scenarioDB {} { bundles := .body [], token := fun _ _ => .body ["0.001"] }
      (fun _ => .sent)).status = .panicked ∧
    (cronPass scenarioDB {} { bundles := .body [], token := fun _ _ => .body ["0.001"] }
      (fun _ => .sent)).requests = [QueryBundles] := by
  decide

/-- C15, as stated, fails: the inner `RunInTx` begins a transaction of its own (two have been
begun in the end), its delete of `a5` is committed by the inner call, and it stays committed
although the outer function then fails and the outer transaction is rolled back. -/
theorem C15_counterexample :
    (RunInTx { committed := scenarioDB } {} {}
      (thenFail (.driver "later failure") (nestedRunInTx {} deleteA5))).1 ≠ none ∧
    (RunInTx { committed := scenarioDB } {} {}
      (thenFail (.driver "later failure") (nestedRunInTx {} deleteA5))).2.begun = 2 ∧
    (RunInTx { committed := scenarioDB } {} {}
      (thenFail (.driver "later failure") (nestedRunInTx {} deleteA5))).2.committed =
        (deleteA5 scenarioDB).2 ∧
    (deleteA5 scenarioDB).2 ≠ scenarioDB := by
  decide

/-- The inner call of a nested `RunInTx`, step by step. -/
theorem nestedRunInTx_begun (w : World) (ctx : Ctx) (faults2 : TxFaults)
    (g : DB → Option Err × DB) (hb : faults2.begin = none) :
    nestedRunInTx faults2 g (WithDB ctx w.begun)
      { w with txs := (w.begun, fun d => d) :: w.txs, begun := w.begun + 1 } =
    match (g w.committed).1 with
    | some err =>
      (some (.wrap err (match faults2.rollback with
          | some err1 => "rollback tx: " ++ err1.Error
          | none => "invoke function")),
        { w with txs := (w.begun, fun d => d) :: closeTx (w.begun + 1) w.txs,
                 begun := w.begun + 2 })
    | none =>
      match faults2.commit with
      | some err =>
        (some (.errorf ("commit tx: " ++ err.Error)),
          { w with txs := (w.begun, fun d => d) :: closeTx (w.begun + 1) w.txs,
                   begun := w.begun + 2 })
      | none =>
        (none,
          { committed := (g w.committed).2,
            txs := (w.begun, fun d => d) :: closeTx (w.begun + 1) w.txs,
            begun := w.begun + 2 }) := by
  unfold nestedRunInTx
  rw [RunInTx_throughHandle]
  simp only [hb]
  cases hg : (g w.committed).1 <;> cases hc : faults2.commit <;>
    simp [closeTx, List.filter_cons]

/-- When the inner and the outer commit of a nested `RunInTx` both succeed, the outer commit
keeps what the inner transaction committed: the committed tables are those the inner function
left. -/
theorem nestedRunInTx_both_commit (w : World) (ctx : Ctx) (faults1 faults2 : TxFaults)
    (g : DB → Option Err × DB) (hb1 : faults1.begin = none) (hb2 : faults2.begin = none)
    (hg : (g w.committed).1 = none) (hc2 : faults2.commit = none)
    (hc1 : faults1.commit = none) :
    (RunInTx w ctx faults1 (nestedRunInTx faults2 g)).1 = none ∧
    (RunInTx w ctx faults1 (nestedRunInTx faults2 g)).2.committed = (g w.committed).2 := by
  have hn := nestedRunInTx_begun w ctx faults2 g hb2
  simp only [RunInTx, Begin, hb1, hn, hg, hc2]
  simp [Commit, hc1, lookupTx]

/-- The nested delete of `a5` at the scenario, both commits succeeding: `a5` is deleted in the
committed tables. -/
theorem nestedRunInTx_scenario :
    (RunInTx { committed := scenarioDB } {} {} (nestedRunInTx {} deleteA5)).1 = none ∧
    (RunInTx { committed := scenarioDB } {} {} (nestedRunInTx {} deleteA5)).2.committed =
      (deleteA5 scenarioDB).2 ∧
    (FindAlertBySlug (RunInTx { committed := scenarioDB } {} {}
      (nestedRunInTx {} deleteA5)).2.committed none "a5").toOption = none := by
  decide

/-- C15, amended: a `RunInTx` call made from inside the function of an enclosing `RunInTx`
ignores the transaction its context carries and begins a second one on the pool (two
transactions have been begun when the outer call returns).  The inner function's writes are
committed by the inner call on its own: when its commit succeeds they are in the committed
tables also if the outer function then fails and the outer transaction is rolled back, and
they are there as well when the outer transaction commits. -/
theorem C15_nested_begins_second (w : World) (ctx : Ctx) (faults1 faults2 : TxFaults)
    (g : DB → Option Err × DB) (hb1 : faults1.begin = none) (hb2 : faults2.begin = none) :
    (RunInTx w ctx faults1 (nestedRunInTx faults2 g)).2.begun = w.begun + 2 ∧
    (∀ e, (RunInTx w ctx faults1 (thenFail e (nestedRunInTx faults2 g))).2.begun =
      w.begun + 2) ∧
    (∀ e, (g w.committed).1 = none → faults2.commit = none →
      (RunInTx w ctx faults1 (thenFail e (nestedRunInTx faults2 g))).1 ≠ none ∧
      (RunInTx w ctx faults1 (thenFail e (nestedRunInTx faults2 g))).2.committed =
        (g w.committed).2) ∧
    ((g w.committed).1 = none → faults2.commit = none → faults1.commit = none →
      (RunInTx w ctx faults1 (nestedRunInTx faults2 g)).1 = none ∧
      (RunInTx w ctx faults1 (nestedRunInTx faults2 g)).2.committed = (g w.committed).2) := by
  have hn := nestedRunInTx_begun w ctx faults2 g hb2
  refine ⟨?_, ?_, ?_, nestedRunInTx_both_commit w ctx faults1 faults2 g hb1 hb2⟩
  · simp only [RunInTx, Begin, hb1, hn]
    cases hg : (g w.committed).1 <;> cases hc : faults2.commit <;>
      cases hr : faults1.rollback <;> cases hc1 : faults1.commit <;>
      simp [Rollback, Commit, lookupTx]
  · intro e
    simp only [RunInTx, Begin, hb1, thenFail, hn]
    cases hg : (g w.committed).1 <;> cases hc : faults2.commit <;>
      cases hr : faults1.rollback <;> simp [Rollback, lookupTx]
  · intro e hg hc
    simp only [RunInTx, Begin, hb1, thenFail, hn, hg, hc]
    cases hr : faults1.rollback <;> simp [Rollback, lookupTx]

/-- C15 (amended) at the scenario: the inner call deletes `a5`; the delete is committed when
the outer function fails, and when the outer transaction commits. -/
theorem C15_witness :
    (RunInTx { committed := scenarioDB } {} {} (nestedRunInTx {} deleteA5)).2.begun = 2 ∧
    (RunInTx { committed := scenarioDB } {} {}
      (thenFail (.driver "later failure") (nestedRunInTx {} deleteA5))).1 ≠ none ∧
    (RunInTx { committed := scenarioDB } {} {}
      (thenFail (.driver "later failure") (nestedRunInTx {} deleteA5))).2.committed =
        (deleteA5 scenarioDB).2 ∧
    (RunInTx { committed := scenarioDB } {} {} (nestedRunInTx {} deleteA5)).1 = none ∧
    (RunInTx { committed := scenarioDB } {} {} (nestedRunInTx {} deleteA5)).2.committed =
      (deleteA5 scenarioDB).2 :=
  ⟨(C15_nested_begins_second { committed := scenarioDB } {} {} {} deleteA5 rfl rfl).1,
   ((C15_nested_begins_second { committed := scenarioDB } {} {} {} deleteA5 rfl rfl).2.2.1
      (.driver "later failure") (by decide) rfl).1,
   ((C15_nested_begins_second { committed := scenarioDB } {} {} {} deleteA5 rfl rfl).2.2.1
      (.driver "later failure") (by decide) rfl).2,
   ((C15_nested_begins_second { committed := scenarioDB } {} {} {} deleteA5 rfl rfl).2.2.2
      (by decide) rfl rfl).1,
   ((C15_nested_begins_second { committed := scenarioDB } {} {} {} deleteA5 rfl rfl).2.2.2
      (by decide) rfl rfl).2⟩

/-- C16, as stated, fails for a function that returns an error which is itself wrapped: the
function fails with `e = errors.Wrap(ErrNotFound, "delete alert")`, the rollback succeeds, and
the cause of what `RunInTx` returns is `ErrNotFound`, the cause of `e`, not `e`. -/
theorem C16_counterexample :
    (RunInTx { committed := scenarioDB } {} {}
      (throughHandle (fun db => (some (.wrap .ErrNotFound "delete alert"), db)))).1 =
      some (.wrap (.wrap .ErrNotFound "delete alert") "invoke function") ∧
    (Err.wrap (.wrap .ErrNotFound "delete alert") "invoke function").Cause = .ErrNotFound ∧
    (Err.wrap (.wrap .ErrNotFound "delete alert") "invoke function").Cause ≠
      .wrap .ErrNotFound "delete alert" := by
  decide

/-- C16, amended: when the function passed to `RunInTx` fails with error e, the error returned
by `RunInTx` has the cause (`errors.Cause`) of e, which is e itself unless e is already a
wrapped error; when the rollback fails with error r, the message of the returned error contains
the message of r; so a caller recognises `ErrNotFound` through the wrapping, whether or not the
rollback succeeded. -/
theorem C16_RunInTx_error_cause (w : World) (ctx : Ctx) (faults : TxFaults)
    (f : Ctx → World → Option Err × World) (e : Err) (w2 : World)
    (hb : faults.begin = none)
    (hf : f (WithDB ctx w.begun)
      { w with txs := (w.begun, fun d => d) :: w.txs, begun := w.begun + 1 } = (some e, w2)) :
    ∃ E, (RunInTx w ctx faults f).1 = some E ∧
      E.Cause = e.Cause ∧
      (e.Cause = e → E.Cause = e) ∧
      (e = .ErrNotFound → IsRecordNotFoundErr E.Cause = true) ∧
      (∀ r w3, Rollback w2 faults.rollback w.begun = (some r, w3) →
        E = .wrap e ("rollback tx: " ++ r.Error) ∧
        E.Error = "rollback tx: " ++ r.Error ++ (": " ++ e.Error)) ∧
      (∀ w3, Rollback w2 faults.rollback w.begun = (none, w3) →
        E = .wrap e "invoke function") := by
  have hcause : ∀ msg, (Err.wrap e msg).Cause = e.Cause := fun _ => rfl
  rcases hr : Rollback w2 faults.rollback w.begun with ⟨_ | r, w3⟩
  · refine ⟨.wrap e "invoke function", ?_, hcause _, ?_, ?_, ?_, ?_⟩
    · simp only [RunInTx, Begin, hb, hf, hr]
    · intro h; rw [hcause, h]
    · intro h; rw [hcause, h]; rfl
    · intro r w4 h; simp at h
    · intro w4 _; rfl
  · refine ⟨.wrap e ("rollback tx: " ++ r.Error), ?_, hcause _, ?_, ?_, ?_, ?_⟩
    · simp only [RunInTx, Begin, hb, hf, hr]
    · intro h; rw [hcause, h]
    · intro h; rw [hcause, h]; rfl
    · intro r1 w4 h
      simp only [Prod.mk.injEq, Option.some.injEq] at h
      rw [← h.1]
      exact ⟨rfl, by simp [Err.Error, String.append_assoc]⟩
    · intro w4 h; simp at h

/-- C16 (amended) at the scenario: the handler deletes a slug that does not exist and the
rollback fails with "connection lost". -/
theorem C16_witness :
    ∃ E, (RunInTx { committed := scenarioDB } {}
        { rollback := some (.driver "connection lost") }
        (throughHandle (fun db => DeleteAlertBySlug db 300 none 1 "not-exist-slug"))).1 = some E ∧
      E.Cause = .ErrNotFound ∧
      E.Error = "rollback tx: " ++ "connection lost" ++ (": " ++ "record not found") :=
  (C16_RunInTx_error_cause { committed := scenarioDB } {}
      { rollback := some (.driver "connection lost") }
      (throughHandle (fun db => DeleteAlertBySlug db 300 none 1 "not-exist-slug")) .ErrNotFound
      { committed := scenarioDB,
        txs := [(0, fun d => (DeleteAlertBySlug d 300 none 1 "not-exist-slug").2)],
        begun := 1 } rfl
      (Prod.ext (by decide) rfl)).elim
    (fun E h => ⟨E, h.1, h.2.1, (h.2.2.2.2.1 (.driver "connection lost")
      { committed := scenarioDB, txs := [], begun := 1 } rfl).2⟩)

/-- C17: for every store state, every criteria and the same outcomes of the statements,
`FindAlertsWithoutContext(criteria)` and `FindAlerts(ctx, criteria)` with a context that carries
no transaction return the same alert list, the same total count and the same error. -/
theorem C17_listing_variants_agree (w : World) (ctx : Ctx) (faults : FindFaults)
    (criteria : IterateAlertCriteria) (hctx : ctx.tx = none) :
    alertDB.FindAlertsWithoutContext w faults criteria =
      alertDB.FindAlerts w ctx faults criteria := by
  unfold alertDB.FindAlertsWithoutContext alertDB.FindAlerts FromContext
  rw [hctx]
  simp only [World.get]
  unfold Kek.FindAlertsWithoutContext Kek.FindAlerts
  rfl

/-- C17 at the scenario, with the criteria of the evaluation pass, with and without a failing
count. -/
theorem C17_witness :
    ((({} : Ctx).tx = none) ∧
      alertDB.FindAlertsWithoutContext { committed := scenarioDB } {}
        { Account := 1, Offset := 0, Limit := 1 } =
      alertDB.FindAlerts { committed := scenarioDB } {} {}
        { Account := 1, Offset := 0, Limit := 1 }) ∧
    (alertDB.FindAlerts { committed := scenarioDB } {} {}
      { Account := 1, Offset := 0, Limit := 1 }).toOption = some ([alert5], 5) :=
  ⟨⟨rfl, C17_listing_variants_agree { committed := scenarioDB } {} {}
      { Account := 1, Offset := 0, Limit := 1 } rfl⟩, by decide⟩

/-- With the empty chain of `StartCron` every tick starts an invocation. -/
theorem StartCron_run (duration : Nat → Nat) (n : Nat) :
    StartCron.run duration n =
      (List.range n).map (fun k => { start := 5 * (k + 1), finish := 5 * (k + 1) + duration k }) := by
  induction n with
  | zero => rfl
  | succ m ih =>
    rw [Cron.run, ih, List.range_succ, List.map_append]
    simp [StartCron]

/-- C18, as stated, fails: a pass that takes 7 seconds is started at second 5, the next tick
starts the next pass at second 10, and both are in progress at second 10. -/
theorem C18_counterexample :
    StartCron.run (fun _ => 7) 2 =
      [{ start := 5, finish := 12 }, { start := 10, finish := 17 }] ∧
    ((StartCron.run (fun _ => 7) 2).filter (fun p => p.inProgress 10)).length = 2 := by
  decide

/-- C18, amended: evaluation passes are not serialized.  Every 5-second tick starts a pass,
whether or not an earlier pass is still running: no tick is skipped, and when a pass takes
longer than 5 seconds the next pass starts while it is in progress. -/
theorem C18_passes_overlap (duration : Nat → Nat) (n : Nat) :
    (StartCron.run duration n).map (fun p => p.start) =
      (List.range n).map (fun k => 5 * (k + 1)) ∧
    (StartCron.run duration n).length = n ∧
    (∀ k, k + 1 < n → 5 < duration k →
      ∃ p q, (StartCron.run duration n)[k]? = some p ∧
        (StartCron.run duration n)[k + 1]? = some q ∧
        p.inProgress q.start = true) := by
  rw [StartCron_run]
  refine ⟨by simp [List.map_map, Function.comp], by simp, ?_⟩
  intro k hk hd
  have hk0 : k < n := by omega
  refine ⟨{ start := 5 * (k + 1), finish := 5 * (k + 1) + duration k },
    { start := 5 * (k + 1 + 1), finish := 5 * (k + 1 + 1) + duration (k + 1) },
    by simp [List.getElem?_map, List.getElem?_range hk0],
    by simp [List.getElem?_map, List.getElem?_range hk], ?_⟩
  simp only [Invocation.inProgress, Bool.and_eq_true, decide_eq_true_eq]
  omega

/-- C18 (amended) with passes of 7 seconds: the second pass starts at second 10, while the first
one, started at second 5, is in progress. -/
theorem C18_witness :
    (StartCron.run (fun _ => 7) 2).map (fun p => p.start) = [5, 10] ∧
    ∃ p q, (StartCron.run (fun _ => 7) 2)[0]? = some p ∧
      (StartCron.run (fun _ => 7) 2)[0 + 1]? = some q ∧ p.inProgress q.start = true :=
  ⟨(C18_passes_overlap (fun _ => 7) 2).1,
   (C18_passes_overlap (fun _ => 7) 2).2.2 0 (by decide) (by decide)⟩

end Kek
